import Mathlib

/-!
# Shallow embedding of the feature-engineering / train-test-split pipeline

Verification development for the stock-prediction training pipeline:

* `src/ml/features/technical_indicators.py` — indicator library,
* `src/ml/scripts/train_global_model.py` — multi-asset regression trainer,
* `src/ml/scripts/train_classifier_model.py` — intraday classifier trainer,
* `src/backend/app/modules/inference/features.py` — inference-time features.

Modelling conventions:

* A pandas `Series` of floats is `Nat → Option ℚ`; `none` models `NaN`.
  Numeric values are exact rationals.  All divisions appearing in the
  sources are guarded by the sources themselves (`+ 1e-8`, `+ 1`) or are
  applied, in the theorems below, under hypotheses (strictly positive
  prices, nonnegative volumes) that keep every denominator nonzero, so
  total division on `ℚ` agrees with float division there and never has to
  produce `inf`/`NaN`.
* A rolling aggregate with pandas' default `min_periods = window` is `NaN`
  exactly when the trailing window is not yet full or contains a `NaN`;
  the embeddings reproduce that definedness structure exactly.
* `rolling(w).std()` (sample standard deviation, `ddof = 1`): `ℚ` has no
  square root, so the stored value is the sample *variance*; its
  definedness (which is all any claim depends on) matches pandas exactly.
* Timestamps are rationals counting days since 1970-01-01 (fractional
  part = time of day); `pd.to_datetime` on such a column is the identity.
-/

namespace StockML

/-- A pandas float series: `none` models `NaN`. -/
abbrev Series : Type := Nat → Option ℚ

/-- Pointwise combination of two series; `NaN` propagates, as for pandas
binary arithmetic. -/
def map2 (f : ℚ → ℚ → ℚ) (a b : Series) : Series := fun i =>
  match a i, b i with
  | some x, some y => some (f x y)
  | _, _ => none

/-- The indices of the trailing window of size `w` ending at row `i`
(pandas `rolling(window=w)` at row `i`, only consulted when `w ≤ i + 1`). -/
def winIdx (w i : Nat) : List Nat := (List.range w).map (fun k => i + 1 - w + k)

/-- Sum of a list of optional values; `none` if any entry is `none`. -/
def sumOpt (l : List (Option ℚ)) : Option ℚ :=
  l.foldr (fun a acc =>
    match a, acc with
    | some x, some y => some (x + y)
    | _, _ => none) (some 0)

/-- `s.rolling(window=w).mean()` with the default `min_periods = w`:
defined at `i` iff the window is full (`w ≤ i + 1`) and free of `NaN`. -/
def rollingMean (s : Series) (w : Nat) : Series := fun i =>
  if w ≤ i + 1 then (sumOpt ((winIdx w i).map s)).map (fun t => t / (w : ℚ))
  else none

/-- `s.rolling(window=w).std()` (`ddof = 1`).  Definedness matches pandas;
the stored value is the sample variance (see the header: `ℚ` has no square
root, and no claim below depends on the numeric value of a std column). -/
def rollingStd (s : Series) (w : Nat) : Series := fun i =>
  (rollingMean s w i).bind (fun m =>
    (sumOpt ((winIdx w i).map (fun j => (s j).map (fun x => (x - m) ^ 2)))).map
      (fun t => t / ((w : ℚ) - 1)))

/-- `s.diff()`: first difference, `NaN` at row 0. -/
def diffS (s : Series) : Series := fun i =>
  match i with
  | 0 => none
  | j + 1 =>
    match s (j + 1), s j with
    | some a, some b => some (a - b)
    | _, _ => none

/-- `s.pct_change(lag)`: `s[i]/s[i-lag] - 1`, `NaN` for the first `lag`
rows.  (The sources only apply it to `NaN`-free price columns, where the
legacy `fill_method` padding is a no-op.) -/
def pctChange (s : Series) (lag : Nat) : Series := fun i =>
  if lag ≤ i then
    match s i, s (i - lag) with
    | some a, some b => some (a / b - 1)
    | _, _ => none
  else none

/-- `s.shift(-k)` on a frame of `n` rows: looks `k` rows ahead, `NaN` once
the lookahead runs past the end of the frame. -/
def shiftNeg (s : Series) (k n : Nat) : Series := fun i =>
  if i + k < n then s (i + k) else none

/-- `s.shift(k)` (`k ≥ 0`): looks `k` rows back, `NaN` on the first `k`
rows. -/
def shiftPos (s : Series) (k : Nat) : Series := fun i =>
  if k ≤ i then s (i - k) else none

/-- `delta.where(delta > 0, 0)`: keeps positive entries, everything else —
including `NaN`, which compares `False` — becomes `0`. -/
def posPart (s : Series) : Series := fun i =>
  match s i with
  | some d => some (if 0 < d then d else 0)
  | none => some 0

/-- `(-delta.where(delta < 0, 0))`: magnitude of negative entries;
`NaN` (comparing `False`) and nonnegative entries become `0`. -/
def negPart (s : Series) : Series := fun i =>
  match s i with
  | some d => some (if d < 0 then -d else 0)
  | none => some 0

/-- `s.ewm(span=span, adjust=False).mean()` on a `NaN`-free series (the
only way the sources use it): the standard recursive exponential mean with
`α = 2 / (span + 1)`. -/
def ewmMean (s : Series) (span : ℚ) : Series
  | 0 => s 0
  | i + 1 =>
    match ewmMean s span i, s (i + 1) with
    | some e, some x => some ((1 - 2 / (span + 1)) * e + (2 / (span + 1)) * x)
    | _, _ => none

/-- The RSI column as computed (with identical code) by
`technical_indicators.calculate_rsi`, `train_global_model.create_features`
and `inference/features.calculate_technical_indicators`:
`rs = gain / (loss + 1e-8)`, `rsi = 100 - 100 / (1 + rs)` where `gain` /
`loss` are rolling means of the positive / negative parts of the one-step
close difference. -/
def rsiSeries (close : Series) (period : Nat) : Series := fun i =>
  match rollingMean (posPart (diffS close)) period i,
        rollingMean (negPart (diffS close)) period i with
  | some g, some l => some (100 - 100 / (1 + g / (l + 1 / 100000000)))
  | _, _ => none

/-- Hour-of-day of a day-count timestamp (`Series.dt.hour`). -/
def pdHour (d : ℚ) : ℚ := ((⌊(d - (⌊d⌋ : ℚ)) * 24⌋ : ℤ) : ℚ)

/-- Minute-of-hour of a day-count timestamp (`Series.dt.minute`). -/
def pdMinute (d : ℚ) : ℚ :=
  ((⌊(d - (⌊d⌋ : ℚ)) * 1440⌋ % 60 : ℤ) : ℚ)

/-- Day-of-week of a day-count timestamp (`Series.dt.dayofweek`,
Monday = 0; day 0 = 1970-01-01 was a Thursday, hence the offset 3). -/
def pdDayOfWeek (d : ℚ) : ℚ := (((⌊d⌋ + 3) % 7 : ℤ) : ℚ)

/-- Calendar month (1–12) of a day-count timestamp (`Series.dt.month`),
via the standard civil-from-days conversion (era arithmetic); total for
every date from year −480000 on, which covers all representable bars. -/
def pdMonth (d : ℚ) : ℚ :=
  let z : Nat := (⌊d⌋ + 719468).toNat
  let doe : Nat := z % 146097
  let yoe : Nat := (doe - doe / 1460 + doe / 36524 - doe / 146096) / 365
  let doy : Nat := doe - (365 * yoe + yoe / 4 - yoe / 100)
  let mp : Nat := (5 * doy + 2) / 153
  ((if mp < 10 then mp + 3 else mp - 9 : Nat) : ℚ)

/-- A dataframe, viewed as an association list of named columns.  The row
count is carried separately where an operation needs it. -/
abbrev Frame : Type := List (String × Series)

/-- Read a column; a missing column is all-`NaN` (never the case in the
uses below). -/
def colOf (f : Frame) (name : String) : Series :=
  match f.find? (fun c => c.1 = name) with
  | some c => c.2
  | none => fun _ => none

/-- `frame[name] = s`: replace the column if present, else append it. -/
def setCol (f : Frame) (name : String) (s : Series) : Frame :=
  if f.any (fun c => c.1 = name) then
    f.map (fun c => if c.1 = name then (name, s) else c)
  else f ++ [(name, s)]

/-- Row `i` is complete (kept by `dropna()`) iff no column is `NaN` there. -/
def rowComplete (f : Frame) (i : Nat) : Bool :=
  f.all (fun c => (c.2 i).isSome)

/-- The row indices of `n` rows surviving `df.dropna()`. -/
def keptRows (f : Frame) (n : Nat) : List Nat :=
  (List.range n).filter (fun i => rowComplete f i)

/-!
## Raw per-asset input

`load_stock_data` issues `SELECT date, open, high, low, close, volume …
ORDER BY date`; a loaded frame is its `n` rows.  The date column comes
from the DB index and is never `NaN`; the OHLCV columns may in principle
carry `NaN`, so they are `Series`.  The claims below about per-asset
feature computation take the source's `sort_values('date')` as already
performed (they assume timestamp-sorted bars, stated as a hypothesis
where a claim mentions it).
-/

structure RawFrame where
  n : Nat
  dateCol : Nat → ℚ
  openCol : Series
  highCol : Series
  lowCol : Series
  closeCol : Series
  volumeCol : Series

/-- No missing OHLCV values among the `n` rows. -/
def RawFrame.clean (r : RawFrame) : Prop :=
  ∀ i < r.n, (r.openCol i).isSome ∧ (r.highCol i).isSome ∧ (r.lowCol i).isSome ∧
    (r.closeCol i).isSome ∧ (r.volumeCol i).isSome

/-- Strictly positive close prices (decidable form).  Under this
hypothesis every close-dividing denominator in the embedded formulas is
nonzero, so total `ℚ` division agrees with pandas float division. -/
def RawFrame.posClose (r : RawFrame) : Prop :=
  ∀ i < r.n, 0 < ((r.closeCol i).getD 1)

/-- Nonnegative volumes (decidable form); keeps the `vol_ma_w + 1`
denominator positive. -/
def RawFrame.nonnegVol (r : RawFrame) : Prop :=
  ∀ i < r.n, 0 ≤ ((r.volumeCol i).getD 0)

namespace TrainGlobalModel

/-- `PREDICTION_HORIZON` of `train_global_model.py` (line 41). -/
def PREDICTION_HORIZON : Nat := 60

/-- The full column set of the frame built by
`train_global_model.create_features` (lines 71–133), in insertion order:
the six raw columns, the forward-return target
`close.shift(-60)/close - 1`, and each engineered feature.  `df.dropna()`
(line 119) inspects exactly these columns. -/
def tgColumns (r : RawFrame) (tid : ℚ) : Frame :=
  [("date", fun i => some (r.dateCol i)),
   ("open", r.openCol), ("high", r.highCol), ("low", r.lowCol),
   ("close", r.closeCol), ("volume", r.volumeCol),
   ("target", map2 (fun a b => a / b - 1)
      (shiftNeg r.closeCol PREDICTION_HORIZON r.n) r.closeCol),
   ("ret_1", pctChange r.closeCol 1), ("ret_5", pctChange r.closeCol 5),
   ("ret_10", pctChange r.closeCol 10), ("ret_20", pctChange r.closeCol 20),
   ("sma_10", rollingMean r.closeCol 10),
   ("dist_sma_10", map2 (fun c s => c / s - 1) r.closeCol (rollingMean r.closeCol 10)),
   ("sma_50", rollingMean r.closeCol 50),
   ("dist_sma_50", map2 (fun c s => c / s - 1) r.closeCol (rollingMean r.closeCol 50)),
   ("volatility_20", rollingStd (pctChange r.closeCol 1) 20),
   ("rsi", rsiSeries r.closeCol 14),
   ("vol_ma_20", rollingMean r.volumeCol 20),
   ("vol_ratio", map2 (fun v m => v / (m + 1)) r.volumeCol (rollingMean r.volumeCol 20)),
   ("hour", fun i => some (pdHour (r.dateCol i))),
   ("dayofweek", fun i => some (pdDayOfWeek (r.dateCol i))),
   ("ticker_id", fun _ => some tid)]

/-- `feature_cols` of `train_global_model.create_features` (lines 126–131). -/
def tgFeatureCols : List String :=
  ["ticker_id", "hour", "dayofweek",
   "ret_1", "ret_5", "ret_10", "ret_20",
   "dist_sma_10", "dist_sma_50",
   "volatility_20", "rsi", "vol_ratio"]

/-- The rows surviving the `dropna` of `create_features`. -/
def tgKept (r : RawFrame) (tid : ℚ) : List Nat := keptRows (tgColumns r tid) r.n

/-- Output of `create_features`: the feature matrix (rows × the 12
feature columns, in order), the target vector, and the dates. -/
structure CFResult where
  x : List (List ℚ)
  y : List ℚ
  dates : List ℚ

/-- `train_global_model.create_features` (lines 71–133): build all
columns, drop incomplete rows, return `(df[feature_cols], df['target'],
df['date'])`. -/
def create_features (r : RawFrame) (tid : ℚ) : CFResult :=
  let f := tgColumns r tid
  let kept := keptRows f r.n
  { x := kept.map (fun i => tgFeatureCols.map (fun c => (colOf f c i).getD 0)),
    y := kept.map (fun i => (colOf f "target" i).getD 0),
    dates := kept.map (fun i => r.dateCol i) }

end TrainGlobalModel

/-!
## The chronological split (`train_global_model.main`, lines 150–210)
-/

/-- Ascending insertion (used to model the sort inside
`Series.quantile`). -/
def insertAsc (x : ℚ) : List ℚ → List ℚ
  | [] => [x]
  | y :: ys => if x ≤ y then x :: y :: ys else y :: insertAsc x ys

/-- Ascending sort of the sample. -/
def sortAsc (l : List ℚ) : List ℚ := l.foldr insertAsc []

/-- `Series.quantile(q)` with pandas' default linear interpolation over
the sorted sample `s`: with `h = q·(n−1)`, `k = ⌊h⌋`, the result is
`s[k] + (h − k)·(s[k+1] − s[k])` (and `s[k]` itself when `k` is the last
index). -/
def quantile (q : ℚ) (l : List ℚ) : ℚ :=
  let s := sortAsc l
  let h : ℚ := q * ((s.length : ℚ) - 1)
  let k : Nat := (⌊h⌋).toNat
  let x := s.getD k 0
  let y := s.getD (k + 1) x
  x + (h - (k : ℚ)) * (y - x)

namespace TrainGlobalModel

/-- One row of the concatenated dataset: its timestamp, its feature
vector, its target (the co-indexed entries of `X_full`, `y_full`,
`dates_full`). -/
structure FRow where
  date : ℚ
  x : List ℚ
  y : ℚ
  deriving DecidableEq

/-- Lines 201–210 of `main`: `split_date = dates_full.quantile(0.8)`
over the *combined* dates, then `mask_train = dates <= split_date`,
`mask_test = dates > split_date`. -/
def splitByDate (rows : List FRow) : ℚ × List FRow × List FRow :=
  let c := quantile (4 / 5) (rows.map (fun r => r.date))
  (c, rows.filter (fun r => r.date ≤ c), rows.filter (fun r => decide (c < r.date)))

/-- The per-asset loop of `main` (lines 162–183): each element models one
asset's load-plus-featurize outcome (`Except.error` = the `try` body
raised); `except: … continue` skips it and the loop carries on. -/
def processLoop : List (Except String (List FRow)) → List (List FRow)
  | [] => []
  | Except.ok a :: rest => a :: processLoop rest
  | Except.error _ :: rest => processLoop rest

/-- Lines 162–210 of `main`: the loop, the concatenation — where
`pd.concat` on an empty collection raises `ValueError: No objects to
concatenate` — and the chronological split. -/
def mainPipeline (assets : List (Except String (List FRow))) :
    Except String (ℚ × List FRow × List FRow) :=
  match processLoop assets with
  | [] => Except.error "No objects to concatenate"
  | fs => Except.ok (splitByDate fs.flatten)

end TrainGlobalModel

namespace InferenceFeatures

/-!
## `src/backend/app/modules/inference/features.py`
-/

/-- `calculate_technical_indicators` (lines 12–73): the full column set
of the returned frame, in insertion order. -/
def calculate_technical_indicators (r : RawFrame) : Frame :=
  let close := r.closeCol
  let sma20 := rollingMean close 20
  let std20 := rollingStd close 20
  let bbUpper := map2 (fun m s => m + s * 2) sma20 std20
  let bbLower := map2 (fun m s => m - s * 2) sma20 std20
  let macd := map2 (fun a b => a - b) (ewmMean close 12) (ewmMean close 26)
  let macdSignal := ewmMean macd 9
  [("date", fun i => some (r.dateCol i)),
   ("open", r.openCol), ("high", r.highCol), ("low", r.lowCol),
   ("close", close), ("volume", r.volumeCol),
   ("sma_10", rollingMean close 10),
   ("dist_sma_10", map2 (fun c s => c / s - 1) close (rollingMean close 10)),
   ("sma_20", rollingMean close 20),
   ("dist_sma_20", map2 (fun c s => c / s - 1) close (rollingMean close 20)),
   ("sma_50", rollingMean close 50),
   ("dist_sma_50", map2 (fun c s => c / s - 1) close (rollingMean close 50)),
   ("rsi", rsiSeries close 14),
   ("macd", macd),
   ("macd_signal", macdSignal),
   ("macd_diff", map2 (fun a b => a - b) macd macdSignal),
   ("bb_upper", bbUpper),
   ("bb_lower", bbLower),
   ("bb_width", map2 (fun ul m => ul / m) (map2 (fun a b => a - b) bbUpper bbLower) sma20),
   ("bb_position", map2 (fun cl d => cl / d) (map2 (fun a b => a - b) close bbLower)
      (map2 (fun u l => u - l + 1 / 100000000) bbUpper bbLower)),
   ("ret_1", pctChange close 1), ("ret_5", pctChange close 5),
   ("ret_10", pctChange close 10), ("ret_20", pctChange close 20),
   ("volatility_20", rollingStd (pctChange close 1) 20),
   ("vol_ma_20", rollingMean r.volumeCol 20),
   ("vol_ratio", map2 (fun v m => v / (m + 1)) r.volumeCol (rollingMean r.volumeCol 20)),
   ("dayofweek", fun i => some (pdDayOfWeek (r.dateCol i))),
   ("month", fun i => some (pdMonth (r.dateCol i)))]

/-- `inference/features.get_feature_columns` (lines 76–92). -/
def get_feature_columns : List String :=
  ["ret_1", "ret_5", "ret_10", "ret_20",
   "dist_sma_10", "dist_sma_20", "dist_sma_50",
   "rsi", "macd", "macd_signal", "macd_diff",
   "bb_width", "bb_position",
   "volatility_20",
   "vol_ratio",
   "dayofweek", "month"]

/-- `prepare_features_for_prediction` (lines 95–118): compute all
indicators, drop `NaN` rows, raise `ValueError` if nothing is left, else
return the single most recent surviving row restricted to the feature
columns in order. -/
def prepare_features_for_prediction (r : RawFrame) :
    Except String (List (String × ℚ)) :=
  let f := calculate_technical_indicators r
  match (keptRows f r.n).getLast? with
  | none => Except.error "Insufficient data to calculate features"
  | some i => Except.ok (get_feature_columns.map (fun c => (c, (colOf f c i).getD 0)))

end InferenceFeatures

namespace TrainClassifierModel

/-!
## `src/ml/scripts/train_classifier_model.py`
-/

/-- `PREDICTION_HORIZON` of the classifier script (line 42): 12 bars. -/
def PREDICTION_HORIZON : Nat := 12

/-- The classification target (lines 86–93): `future_return =
close.shift(-12)/close - 1`; the column is *initialised to NEUTRAL (1)*
and overwritten with UP (2) / DOWN (0) only where the threshold
comparison holds — a `NaN` forward return compares `False`, so the
column is never `NaN`. -/
def clTarget (close : Series) (n : Nat) : Series := fun i =>
  match map2 (fun a b => a / b - 1) (shiftNeg close PREDICTION_HORIZON n) close i with
  | some v => some (if 3 / 1000 < v then 2 else if v < -(3 / 1000) then 0 else 1)
  | none => some 1

/-- The full column set of `train_classifier_model.create_features`
(lines 79–182) in the `market_df is None` branch (lines 153–157), in
insertion order.  `df.dropna()` (line 163) inspects exactly these
columns. -/
def clColumns (r : RawFrame) (tid : ℚ) : Frame :=
  let close := r.closeCol
  let rsi := rsiSeries close 14
  let volRatio := map2 (fun v m => v / (m + 1)) r.volumeCol (rollingMean r.volumeCol 12)
  let hlRange := map2 (fun hl c => hl / c) (map2 (fun a b => a - b) r.highCol r.lowCol) close
  [("date", fun i => some (r.dateCol i)),
   ("open", r.openCol), ("high", r.highCol), ("low", r.lowCol),
   ("close", close), ("volume", r.volumeCol),
   ("target", clTarget close r.n),
   ("ret_1", pctChange close 1), ("ret_3", pctChange close 3),
   ("ret_6", pctChange close 6), ("ret_12", pctChange close 12),
   ("momentum_12", map2 (fun c p => c / p - 1) close (shiftPos close 12)),
   ("momentum_36", map2 (fun c p => c / p - 1) close (shiftPos close 36)),
   ("dist_sma_12", map2 (fun c s => c / s - 1) close (rollingMean close 12)),
   ("dist_sma_36", map2 (fun c s => c / s - 1) close (rollingMean close 36)),
   ("dist_sma_72", map2 (fun c s => c / s - 1) close (rollingMean close 72)),
   ("volatility_12", rollingStd (pctChange close 1) 12),
   ("volatility_36", rollingStd (pctChange close 1) 36),
   ("hl_range", hlRange),
   ("hl_range_ma", rollingMean hlRange 12),
   ("rsi", rsi),
   ("rsi_oversold", fun i =>
      some (match rsi i with | some v => if v < 30 then 1 else 0 | none => 0)),
   ("rsi_overbought", fun i =>
      some (match rsi i with | some v => if 70 < v then 1 else 0 | none => 0)),
   ("vol_ma_12", rollingMean r.volumeCol 12),
   ("vol_ratio", volRatio),
   ("vol_spike", fun i =>
      some (match volRatio i with | some v => if 2 < v then 1 else 0 | none => 0)),
   ("hour", fun i => some (pdHour (r.dateCol i))),
   ("minute", fun i => some (pdMinute (r.dateCol i))),
   ("dayofweek", fun i => some (pdDayOfWeek (r.dateCol i))),
   ("is_open_hour", fun i =>
      some (if pdHour (r.dateCol i) = 9 ∧ pdMinute (r.dateCol i) < 60 then 1 else 0)),
   ("is_close_hour", fun i => some (if 15 ≤ pdHour (r.dateCol i) then 1 else 0)),
   ("market_ret_1", fun _ => some 0),
   ("market_ret_12", fun _ => some 0),
   ("market_momentum", fun _ => some 0),
   ("rel_strength", fun _ => some 0),
   ("ticker_id", fun _ => some tid)]

/-- `feature_cols` of the classifier's `create_features` (lines 169–180). -/
def clFeatureCols : List String :=
  ["ticker_id", "hour", "dayofweek",
   "ret_1", "ret_3", "ret_6", "ret_12",
   "momentum_12", "momentum_36",
   "dist_sma_12", "dist_sma_36", "dist_sma_72",
   "volatility_12", "volatility_36",
   "hl_range", "hl_range_ma",
   "rsi", "rsi_oversold", "rsi_overbought",
   "vol_ratio", "vol_spike",
   "is_open_hour", "is_close_hour",
   "market_ret_1", "market_ret_12", "market_momentum", "rel_strength"]

/-- The rows surviving the classifier's `dropna` (line 163). -/
def clKept (r : RawFrame) (tid : ℚ) : List Nat := keptRows (clColumns r tid) r.n

end TrainClassifierModel

/-!
## Heap model of `src/ml/features/technical_indicators.py`

The indicator-library functions follow the pattern `result = df.copy()`
followed by in-place column assignments on `result`.  To state anything
about mutation, frames live in an explicit heap (a list of frames,
addressed by index); `df.copy()` allocates, `result[c] = s` mutates in
place.  Each library function is embedded as a state transformer
returning the heap after the call together with the reference to the
frame it returns.
-/

structure Heap where
  frames : List Frame

/-- Dereference (out-of-range never occurs in the embedded code). -/
def Heap.getF (h : Heap) (r : Nat) : Frame := h.frames.getD r []

/-- Allocate a fresh frame, returning its reference. -/
def Heap.alloc (h : Heap) (f : Frame) : Heap × Nat :=
  (⟨h.frames ++ [f]⟩, h.frames.length)

/-- `df.copy()`: a fresh frame with the same contents. -/
def Heap.copy (h : Heap) (r : Nat) : Heap × Nat := h.alloc (h.getF r)

/-- `frame[name] = s` on the frame at `r`, in place. -/
def Heap.set (h : Heap) (r : Nat) (name : String) (s : Series) : Heap :=
  ⟨h.frames.set r (setCol (h.getF r) name s)⟩

namespace TechnicalIndicators

/-- The body of the `for window in windows` loop of `calculate_sma`
(lines 25–31), acting on the result frame at `res`: set `sma_w`, then
`dist_sma_w = close/sma_w - 1`. -/
def smaStep (res : Nat) (hh : Heap) (w : Nat) : Heap :=
  let hh1 := hh.set res ("sma_" ++ toString w)
    (rollingMean (colOf (hh.getF res) "close") w)
  hh1.set res ("dist_sma_" ++ toString w)
    (map2 (fun c s => c / s - 1) (colOf (hh1.getF res) "close")
      (colOf (hh1.getF res) ("sma_" ++ toString w)))

/-- `calculate_sma(df, windows)` (lines 12–33): copy, then per window set
`sma_w` and `dist_sma_w`. -/
def calculate_sma (h : Heap) (df : Nat) (windows : List Nat) : Heap × Nat :=
  let p := h.copy df
  (windows.foldl (smaStep p.2) p.1, p.2)

/-- `calculate_rsi(df, period)` (lines 36–56): copy, then set `rsi` from
the local gain/loss rolling means. -/
def calculate_rsi (h : Heap) (df : Nat) (period : Nat) : Heap × Nat :=
  let p := h.copy df
  (p.1.set p.2 "rsi" (rsiSeries (colOf (p.1.getF p.2) "close") period), p.2)

/-- `calculate_macd(df, fast, slow, signal)` (lines 59–81). -/
def calculate_macd (h : Heap) (df : Nat) (fast slow signal : ℚ) : Heap × Nat :=
  let p := h.copy df
  let h1 := p.1.set p.2 "macd" (map2 (fun a b => a - b)
    (ewmMean (colOf (p.1.getF p.2) "close") fast)
    (ewmMean (colOf (p.1.getF p.2) "close") slow))
  let h2 := h1.set p.2 "macd_signal" (ewmMean (colOf (h1.getF p.2) "macd") signal)
  let h3 := h2.set p.2 "macd_diff" (map2 (fun a b => a - b)
    (colOf (h2.getF p.2) "macd") (colOf (h2.getF p.2) "macd_signal"))
  (h3, p.2)

/-- `calculate_bollinger_bands(df, window, num_std)` (lines 84–107); the
band SMA and std are locals, not stored columns. -/
def calculate_bollinger_bands (h : Heap) (df : Nat) (window : Nat) (numStd : ℚ) :
    Heap × Nat :=
  let p := h.copy df
  let sma := rollingMean (colOf (p.1.getF p.2) "close") window
  let std := rollingStd (colOf (p.1.getF p.2) "close") window
  let h1 := p.1.set p.2 "bb_upper" (map2 (fun m s => m + s * numStd) sma std)
  let h2 := h1.set p.2 "bb_lower" (map2 (fun m s => m - s * numStd) sma std)
  let h3 := h2.set p.2 "bb_width" (map2 (fun ul m => ul / m)
    (map2 (fun a b => a - b) (colOf (h2.getF p.2) "bb_upper") (colOf (h2.getF p.2) "bb_lower"))
    sma)
  let h4 := h3.set p.2 "bb_position" (map2 (fun cl d => cl / d)
    (map2 (fun a b => a - b) (colOf (h3.getF p.2) "close") (colOf (h3.getF p.2) "bb_lower"))
    (map2 (fun u l => u - l + 1 / 100000000)
      (colOf (h3.getF p.2) "bb_upper") (colOf (h3.getF p.2) "bb_lower")))
  (h4, p.2)

/-- The body of the `for lag in lags` loop of `calculate_returns`
(lines 123–124): set `ret_lag = close.pct_change(lag)`. -/
def retStep (res : Nat) (hh : Heap) (lag : Nat) : Heap :=
  hh.set res ("ret_" ++ toString lag) (pctChange (colOf (hh.getF res) "close") lag)

/-- `calculate_returns(df, lags)` (lines 110–126). -/
def calculate_returns (h : Heap) (df : Nat) (lags : List Nat) : Heap × Nat :=
  let p := h.copy df
  (lags.foldl (retStep p.2) p.1, p.2)

/-- `calculate_volatility(df, window)` (lines 129–145). -/
def calculate_volatility (h : Heap) (df : Nat) (window : Nat) : Heap × Nat :=
  let p := h.copy df
  (p.1.set p.2 ("volatility_" ++ toString window)
    (rollingStd (pctChange (colOf (p.1.getF p.2) "close") 1) window), p.2)

/-- `calculate_volume_features(df, window)` (lines 148–164): sets
`vol_ma_w` and `vol_ratio = volume / (vol_ma_w + 1)`. -/
def calculate_volume_features (h : Heap) (df : Nat) (window : Nat) : Heap × Nat :=
  let p := h.copy df
  let h1 := p.1.set p.2 ("vol_ma_" ++ toString window)
    (rollingMean (colOf (p.1.getF p.2) "volume") window)
  let h2 := h1.set p.2 "vol_ratio" (map2 (fun v m => v / (m + 1))
    (colOf (h1.getF p.2) "volume") (colOf (h1.getF p.2) ("vol_ma_" ++ toString window)))
  (h2, p.2)

/-- Ordering used by `sort_values('date', na_position='last')`. -/
def dateLE (a b : Option ℚ) : Bool :=
  match a, b with
  | some x, some y => decide (x ≤ y)
  | some _, none => true
  | none, some _ => false
  | none, none => true

/-- Insert an index into an index list sorted ascending by date. -/
def insIdx (d : Series) (i : Nat) : List Nat → List Nat
  | [] => [i]
  | j :: js => if dateLE (d i) (d j) then i :: j :: js else j :: insIdx d i js

/-- The row order produced by sorting `n` rows ascending by date. -/
def sortIndicesByDate (d : Series) (n : Nat) : List Nat :=
  (List.range n).foldr (insIdx d) []

/-- `df.sort_values('date').reset_index(drop=True)` on a frame of `n`
rows: permute every column by the sorted row order. -/
def sortValuesByDate (f : Frame) (n : Nat) : Frame :=
  let ord := sortIndicesByDate (colOf f "date") n
  f.map (fun c => (c.1, fun i =>
    match ord.get? i with
    | some j => c.2 j
    | none => c.2 i))

/-- Lines 179–182 of `create_all_features`: when the frame at hand has a
`date` column, `pd.to_datetime` it (the identity on day-count dates, but
an in-place column assignment all the same) and rebind `result` to the
freshly built sorted frame. -/
def sortStage (n : Nat) (p : Heap × Nat) : Heap × Nat :=
  if (p.1.getF p.2).any (fun c => c.1 = "date") then
    let hd := p.1.set p.2 "date" (colOf (p.1.getF p.2) "date")
    hd.alloc (sortValuesByDate (hd.getF p.2) n)
  else p

/-- Lines 193–196 of `create_all_features`: when a `date` column exists,
add the `dayofweek` and `month` time features in place. -/
def timeStage (p : Heap × Nat) : Heap × Nat :=
  if (p.1.getF p.2).any (fun c => c.1 = "date") then
    let hA := p.1.set p.2 "dayofweek"
      (fun i => ((colOf (p.1.getF p.2) "date") i).map pdDayOfWeek)
    (hA.set p.2 "month" (fun i => ((colOf (hA.getF p.2) "date") i).map pdMonth), p.2)
  else p

/-- `create_all_features(df)` (lines 167–198) on a frame of `n` rows:
copy; sort by date when present; apply the seven indicator functions with
the source's arguments; finally add the time features when `date`
exists. -/
def create_all_features (h : Heap) (df : Nat) (n : Nat) : Heap × Nat :=
  let q := sortStage n (h.copy df)
  let q1 := calculate_sma q.1 q.2 [10, 20, 50]
  let q2 := calculate_rsi q1.1 q1.2 14
  let q3 := calculate_macd q2.1 q2.2 12 26 9
  let q4 := calculate_bollinger_bands q3.1 q3.2 20 2
  let q5 := calculate_returns q4.1 q4.2 [1, 5, 10, 20]
  let q6 := calculate_volatility q5.1 q5.2 20
  let q7 := calculate_volume_features q6.1 q6.2 20
  timeStage q7

/-- `technical_indicators.get_feature_columns` (lines 201–224). -/
def get_feature_columns : List String :=
  ["ret_1", "ret_5", "ret_10", "ret_20",
   "dist_sma_10", "dist_sma_20", "dist_sma_50",
   "rsi", "macd", "macd_signal", "macd_diff",
   "bb_width", "bb_position",
   "volatility_20",
   "vol_ratio",
   "dayofweek", "month"]

end TechnicalIndicators

/-!
## Concrete inputs used to instantiate the theorems
-/

/-- A constant-price bar history: `n` rows, day-count dates `0,1,2,…`,
`open = close = low = volume = 1`, `high = 2`. -/
def constBars (n : Nat) : RawFrame :=
  { n := n, dateCol := fun i => (i : ℚ), openCol := fun _ => some 1,
    highCol := fun _ => some 2, lowCol := fun _ => some 1,
    closeCol := fun _ => some 1, volumeCol := fun _ => some 1 }

/-- `n` dataset rows dated days `1 … n` (one asset's contribution in the
split example of the spec). -/
def dayRows (n : Nat) : List TrainGlobalModel.FRow :=
  (List.range n).map (fun k => { date := ((k + 1 : Nat) : ℚ), x := [], y := 0 })

/-- A one-frame heap holding a constant volume column. -/
def volOnlyHeap : Heap := ⟨[[("volume", fun _ => some 1)]]⟩

/-- A one-frame heap holding a constant close column. -/
def closeOnlyHeap : Heap := ⟨[[("close", fun _ => some 1)]]⟩

/-- The volume ratio as the specification's sentence reads, *formalised
from the spec's words, not from the source*: `volume / rolling mean
volume`, with no `+ 1` in the denominator.  Compared against the
source-derived `vol_ratio` column. -/
def specVolumeRatio (volume : Series) (w : Nat) : Series :=
  map2 (fun v m => v / m) volume (rollingMean volume w)

end StockML

/-!
## General lemmas

`Rat` arithmetic is `@[irreducible]` upstream, which blocks
elaborator-side evaluation of concrete rationals; restore the default
reducibility so concrete instances of the theorems below are checkable by
`decide`.
-/

attribute [local semireducible] Rat.add Rat.sub Rat.mul Rat.inv

namespace StockML

theorem sumOpt_nil : sumOpt [] = some 0 := rfl

theorem sumOpt_cons (a : Option ℚ) (t : List (Option ℚ)) :
    sumOpt (a :: t) = match a, sumOpt t with
      | some x, some y => some (x + y)
      | _, _ => none := rfl

theorem sumOpt_isSome : ∀ {l : List (Option ℚ)}, (∀ a ∈ l, a.isSome) → (sumOpt l).isSome
  | [], _ => by simp [sumOpt_nil]
  | a :: t, h => by
    have ht := sumOpt_isSome (fun b hb => h b (List.mem_cons_of_mem _ hb))
    have ha := h a (List.mem_cons_self _ _)
    rcases Option.isSome_iff_exists.mp ha with ⟨x, hx⟩
    rcases Option.isSome_iff_exists.mp ht with ⟨y, hy⟩
    rw [sumOpt_cons, hx, hy]
    rfl

theorem sumOpt_nonneg : ∀ {l : List (Option ℚ)},
    (∀ a ∈ l, ∀ x, a = some x → 0 ≤ x) → ∀ {t}, sumOpt l = some t → 0 ≤ t
  | [], _, t, ht => by
    rw [sumOpt_nil] at ht
    exact (Option.some_inj.mp ht) ▸ le_refl 0
  | a :: l, h, t, ht => by
    rw [sumOpt_cons] at ht
    cases ha : a with
    | none => rw [ha] at ht; exact absurd ht (by simp)
    | some x =>
      cases hs : sumOpt l with
      | none => rw [ha, hs] at ht; exact absurd ht (by simp)
      | some y =>
        rw [ha, hs] at ht
        have hx : 0 ≤ x := h a (List.mem_cons_self _ _) x ha
        have hy : 0 ≤ y :=
          sumOpt_nonneg (fun b hb => h b (List.mem_cons_of_mem _ hb)) hs
        have : x + y = t := Option.some_inj.mp ht
        linarith [this]

theorem rollingMean_eq_none (s : Series) (w i : Nat) (h : i + 1 < w) :
    rollingMean s w i = none := by
  unfold rollingMean
  rw [if_neg (by omega)]

theorem le_of_rollingMean_isSome {s : Series} {w i : Nat}
    (h : (rollingMean s w i).isSome) : w ≤ i + 1 := by
  by_contra hc
  rw [rollingMean_eq_none s w i (by omega)] at h
  simp at h

theorem mem_winIdx {w i j : Nat} (hw : w ≤ i + 1) (hj : j ∈ winIdx w i) :
    i + 1 - w ≤ j ∧ j ≤ i := by
  simp only [winIdx, List.mem_map, List.mem_range] at hj
  rcases hj with ⟨k, hk, rfl⟩
  omega

theorem rollingMean_isSome {s : Series} {w i : Nat} (hw : w ≤ i + 1)
    (hs : ∀ j, i + 1 - w ≤ j → j ≤ i → (s j).isSome) :
    (rollingMean s w i).isSome := by
  unfold rollingMean
  rw [if_pos hw]
  have hsum : (sumOpt ((winIdx w i).map s)).isSome := by
    apply sumOpt_isSome
    intro a ha
    rcases List.mem_map.mp ha with ⟨j, hj, rfl⟩
    rcases mem_winIdx hw hj with ⟨h1, h2⟩
    exact hs j h1 h2
  rcases Option.isSome_iff_exists.mp hsum with ⟨x, hx⟩
  rw [hx]
  rfl

theorem rollingStd_eq_none (s : Series) (w i : Nat) (h : i + 1 < w) :
    rollingStd s w i = none := by
  unfold rollingStd
  rw [rollingMean_eq_none s w i h]
  rfl

theorem le_of_rollingStd_isSome {s : Series} {w i : Nat}
    (h : (rollingStd s w i).isSome) : w ≤ i + 1 := by
  by_contra hc
  rw [rollingStd_eq_none s w i (by omega)] at h
  simp at h

theorem rollingStd_isSome {s : Series} {w i : Nat} (hw : w ≤ i + 1)
    (hs : ∀ j, i + 1 - w ≤ j → j ≤ i → (s j).isSome) :
    (rollingStd s w i).isSome := by
  unfold rollingStd
  rcases Option.isSome_iff_exists.mp (rollingMean_isSome hw hs) with ⟨m, hm⟩
  rw [hm]
  have hsum : (sumOpt ((winIdx w i).map (fun j => (s j).map (fun x => (x - m) ^ 2)))).isSome := by
    apply sumOpt_isSome
    intro a ha
    rcases List.mem_map.mp ha with ⟨j, hj, rfl⟩
    rcases mem_winIdx hw hj with ⟨h1, h2⟩
    rcases Option.isSome_iff_exists.mp (hs j h1 h2) with ⟨x, hx⟩
    rw [hx]
    rfl
  rcases Option.isSome_iff_exists.mp hsum with ⟨t, ht⟩
  rw [Option.some_bind, ht]
  rfl

theorem map2_isSome_iff {f : ℚ → ℚ → ℚ} {a b : Series} {i : Nat} :
    (map2 f a b i).isSome ↔ (a i).isSome ∧ (b i).isSome := by
  unfold map2
  cases a i <;> cases b i <;> simp

theorem pctChange_isSome_iff {s : Series} {lag i : Nat} :
    (pctChange s lag i).isSome ↔ lag ≤ i ∧ (s i).isSome ∧ (s (i - lag)).isSome := by
  unfold pctChange
  by_cases h : lag ≤ i
  · rw [if_pos h]
    cases s i <;> cases s (i - lag) <;> simp [h]
  · rw [if_neg h]
    simp [h]

theorem shiftNeg_isSome_iff {s : Series} {k n i : Nat} :
    (shiftNeg s k n i).isSome ↔ i + k < n ∧ (s (i + k)).isSome := by
  unfold shiftNeg
  by_cases h : i + k < n <;> simp [h]

theorem shiftPos_isSome_iff {s : Series} {k i : Nat} :
    (shiftPos s k i).isSome ↔ k ≤ i ∧ (s (i - k)).isSome := by
  unfold shiftPos
  by_cases h : k ≤ i <;> simp [h]

theorem posPart_isSome (s : Series) (i : Nat) : (posPart s i).isSome := by
  unfold posPart
  cases s i <;> simp

theorem negPart_isSome (s : Series) (i : Nat) : (negPart s i).isSome := by
  unfold negPart
  cases s i <;> simp

theorem posPart_nonneg (s : Series) (i : Nat) {x : ℚ} (h : posPart s i = some x) :
    0 ≤ x := by
  unfold posPart at h
  cases hs : s i <;> rw [hs] at h
  · exact (Option.some_inj.mp h) ▸ le_refl 0
  · have := Option.some_inj.mp h
    subst this
    split <;> [linarith; exact le_refl 0]

theorem negPart_nonneg (s : Series) (i : Nat) {x : ℚ} (h : negPart s i = some x) :
    0 ≤ x := by
  unfold negPart at h
  cases hs : s i <;> rw [hs] at h
  · exact (Option.some_inj.mp h) ▸ le_refl 0
  · have := Option.some_inj.mp h
    subst this
    split <;> [linarith; exact le_refl 0]

theorem ewmMean_isSome {s : Series} {span : ℚ} :
    ∀ {i : Nat}, (∀ j, j ≤ i → (s j).isSome) → (ewmMean s span i).isSome
  | 0, h => by
    have := h 0 (le_refl 0)
    unfold ewmMean
    exact this
  | i + 1, h => by
    have h1 : (ewmMean s span i).isSome :=
      ewmMean_isSome (fun j hj => h j (Nat.le_succ_of_le hj))
    rcases Option.isSome_iff_exists.mp h1 with ⟨e, he⟩
    rcases Option.isSome_iff_exists.mp (h (i + 1) (le_refl _)) with ⟨x, hx⟩
    unfold ewmMean
    rw [he, hx]
    rfl

theorem rsiSeries_isSome {close : Series} {period i : Nat} (h : period ≤ i + 1) :
    (rsiSeries close period i).isSome := by
  unfold rsiSeries
  have hg := rollingMean_isSome (s := posPart (diffS close)) h
    (fun j _ _ => posPart_isSome _ j)
  have hl := rollingMean_isSome (s := negPart (diffS close)) h
    (fun j _ _ => negPart_isSome _ j)
  rcases Option.isSome_iff_exists.mp hg with ⟨g, hg'⟩
  rcases Option.isSome_iff_exists.mp hl with ⟨l, hl'⟩
  rw [hg', hl']
  rfl

theorem rollingMean_nonneg {s : Series} {w i : Nat} {m : ℚ}
    (hs : ∀ j x, s j = some x → 0 ≤ x) (hm : rollingMean s w i = some m) : 0 ≤ m := by
  unfold rollingMean at hm
  by_cases hw : w ≤ i + 1
  · rw [if_pos hw] at hm
    cases hsum : sumOpt ((winIdx w i).map s) with
    | none => rw [hsum] at hm; exact absurd hm (by simp)
    | some t =>
      have ht : 0 ≤ t := by
        apply sumOpt_nonneg (l := (winIdx w i).map s) _ hsum
        intro a ha x hax
        rcases List.mem_map.mp ha with ⟨j, _, rfl⟩
        exact hs j x hax
      rw [hsum] at hm
      have : t / (w : ℚ) = m := Option.some_inj.mp hm
      subst this
      exact div_nonneg ht (by positivity)
  · rw [if_neg hw] at hm
    exact absurd hm (by simp)

theorem rsiSeries_mem_Icc {close : Series} {period i : Nat} {v : ℚ}
    (h : rsiSeries close period i = some v) : 0 ≤ v ∧ v ≤ 100 := by
  unfold rsiSeries at h
  cases hg : rollingMean (posPart (diffS close)) period i with
  | none => rw [hg] at h; exact absurd h (by simp)
  | some g =>
    cases hl : rollingMean (negPart (diffS close)) period i with
    | none => rw [hg, hl] at h; exact absurd h (by simp)
    | some l =>
      rw [hg, hl] at h
      have hv : 100 - 100 / (1 + g / (l + 1 / 100000000)) = v := Option.some_inj.mp h
      have hg0 : 0 ≤ g := rollingMean_nonneg (fun j x hx => posPart_nonneg _ _ hx) hg
      have hl0 : 0 ≤ l := rollingMean_nonneg (fun j x hx => negPart_nonneg _ _ hx) hl
      have hrs : 0 ≤ g / (l + 1 / 100000000) := div_nonneg hg0 (by positivity)
      have hd1 : (1 : ℚ) ≤ 1 + g / (l + 1 / 100000000) := by linarith
      have hq1 : 0 < 100 / (1 + g / (l + 1 / 100000000)) := by positivity
      have hq2 : 100 / (1 + g / (l + 1 / 100000000)) ≤ 100 :=
        div_le_self (by norm_num) hd1
      constructor <;> linarith

theorem colOf_nil (name : String) : colOf [] name = fun _ => none := rfl

theorem colOf_cons (c : String × Series) (t : Frame) (name : String) :
    colOf (c :: t) name = if c.1 = name then c.2 else colOf t name := by
  unfold colOf
  by_cases h : c.1 = name
  · rw [List.find?_cons_of_pos _ (by simp [h]), if_pos h]
  · rw [List.find?_cons_of_neg _ (by simp [h]), if_neg h]

theorem colOf_replace : ∀ (f : Frame) (name : String) (s : Series),
    f.any (fun c => c.1 = name) →
    colOf (f.map (fun c => if c.1 = name then (name, s) else c)) name = s
  | [], name, s, h => by simp at h
  | c :: t, name, s, h => by
    by_cases hc : c.1 = name
    · simp only [List.map_cons, if_pos hc]
      rw [colOf_cons]
      simp
    · simp only [List.map_cons, if_neg hc]
      rw [colOf_cons, if_neg hc]
      apply colOf_replace t name s
      simp only [List.any_cons, Bool.or_eq_true] at h
      rcases h with h | h
      · exact absurd (by simpa using h) hc
      · exact h

theorem colOf_append_single : ∀ (f : Frame) (name : String) (s : Series),
    ¬ f.any (fun c => c.1 = name) = true →
    colOf (f ++ [(name, s)]) name = s
  | [], name, s, _ => by
    rw [List.nil_append, colOf_cons]
    simp
  | c :: t, name, s, h => by
    simp only [List.any_cons, Bool.or_eq_true, not_or] at h
    rw [List.cons_append, colOf_cons, if_neg (by simpa using h.1)]
    exact colOf_append_single t name s h.2

theorem colOf_setCol_self (f : Frame) (name : String) (s : Series) :
    colOf (setCol f name s) name = s := by
  unfold setCol
  by_cases h : f.any (fun c => c.1 = name)
  · rw [if_pos h]
    exact colOf_replace f name s h
  · rw [if_neg h]
    exact colOf_append_single f name s h

theorem colOf_replace_ne : ∀ (f : Frame) (name other : String) (s : Series),
    other ≠ name →
    colOf (f.map (fun c => if c.1 = name then (name, s) else c)) other = colOf f other
  | [], _, _, _, _ => rfl
  | c :: t, name, other, s, h => by
    by_cases hc : c.1 = name
    · simp only [List.map_cons, if_pos hc]
      rw [colOf_cons, colOf_cons, if_neg (show ¬ (name, s).1 = other from fun he => h he.symm),
        if_neg (show ¬ c.1 = other from fun he => h (hc ▸ he.symm))]
      exact colOf_replace_ne t name other s h
    · simp only [List.map_cons, if_neg hc]
      rw [colOf_cons, colOf_cons]
      by_cases he : c.1 = other
      · rw [if_pos he, if_pos he]
      · rw [if_neg he, if_neg he]
        exact colOf_replace_ne t name other s h

theorem colOf_append_single_ne : ∀ (f : Frame) (name other : String) (s : Series),
    other ≠ name → colOf (f ++ [(name, s)]) other = colOf f other
  | [], name, other, s, h => by
    rw [List.nil_append, colOf_cons,
      if_neg (show ¬ (name, s).1 = other from fun he => h he.symm), colOf_nil]
  | c :: t, name, other, s, h => by
    rw [List.cons_append, colOf_cons, colOf_cons]
    by_cases he : c.1 = other
    · rw [if_pos he, if_pos he]
    · rw [if_neg he, if_neg he]
      exact colOf_append_single_ne t name other s h

theorem colOf_setCol_ne (f : Frame) (name other : String) (s : Series)
    (h : other ≠ name) : colOf (setCol f name s) other = colOf f other := by
  unfold setCol
  by_cases hf : f.any (fun c => c.1 = name)
  · rw [if_pos hf]
    exact colOf_replace_ne f name other s h
  · rw [if_neg hf]
    exact colOf_append_single_ne f name other s h

theorem Heap.length_alloc (h : Heap) (f : Frame) :
    (h.alloc f).1.frames.length = h.frames.length + 1 := by
  unfold Heap.alloc
  simp

theorem Heap.copy_ref (h : Heap) (r : Nat) : (h.copy r).2 = h.frames.length := rfl

theorem Heap.length_copy (h : Heap) (r : Nat) :
    (h.copy r).1.frames.length = h.frames.length + 1 :=
  Heap.length_alloc h (h.getF r)

theorem Heap.length_set (h : Heap) (r : Nat) (name : String) (s : Series) :
    (h.set r name s).frames.length = h.frames.length :=
  List.length_set _ _ _

theorem Heap.getF_alloc_lt {h : Heap} {f : Frame} {j : Nat}
    (hj : j < h.frames.length) : (h.alloc f).1.getF j = h.getF j := by
  unfold Heap.alloc Heap.getF
  exact List.getD_append _ _ _ _ hj

theorem Heap.getF_alloc_self (h : Heap) (f : Frame) :
    (h.alloc f).1.getF (h.alloc f).2 = f := by
  unfold Heap.alloc Heap.getF
  rw [List.getD_append_right _ _ _ _ (le_refl _)]
  simp

theorem Heap.getF_set_ne {h : Heap} {r j : Nat} (name : String) (s : Series)
    (hne : j ≠ r) : (h.set r name s).getF j = h.getF j := by
  unfold Heap.set Heap.getF
  rw [List.getD_eq_getElem?_getD, List.getElem?_set_ne (Ne.symm hne)]
  exact (List.getD_eq_getElem?_getD _ _ _).symm

theorem Heap.getF_set_self {h : Heap} {r : Nat} (hr : r < h.frames.length)
    (name : String) (s : Series) :
    (h.set r name s).getF r = setCol (h.getF r) name s := by
  unfold Heap.set Heap.getF
  rw [List.getD_eq_getElem?_getD, List.getElem?_set_self (by simpa using hr)]
  rfl

theorem Heap.getF_copy_lt {h : Heap} {r j : Nat} (hj : j < h.frames.length) :
    (h.copy r).1.getF j = h.getF j :=
  Heap.getF_alloc_lt hj

theorem Heap.getF_copy_self (h : Heap) (r : Nat) :
    (h.copy r).1.getF (h.copy r).2 = h.getF r :=
  Heap.getF_alloc_self h (h.getF r)

theorem filter_range_band (a b : Nat) : ∀ (m : Nat),
    (List.range m).filter (fun i => decide (a ≤ i ∧ i < b)) =
      List.range' a (min m b - a)
  | 0 => by simp
  | m + 1 => by
    rw [List.range_succ, List.filter_append, filter_range_band a b m]
    by_cases hmb : m < b
    · have hmin : min m b = m := by omega
      have hminS : min (m + 1) b = m + 1 := by omega
      rw [hmin, hminS]
      by_cases ham : a ≤ m
      · have hsing : List.filter (fun i => decide (a ≤ i ∧ i < b)) [m] = [m] := by
          simp only [List.filter_cons, List.filter_nil]
          rw [if_pos (by simp; omega)]
        rw [hsing, show m + 1 - a = (m - a) + 1 from by omega, List.range'_concat]
        congr 1
        simp
        omega
      · have hsing : List.filter (fun i => decide (a ≤ i ∧ i < b)) [m] = [] := by
          simp only [List.filter_cons, List.filter_nil]
          rw [if_neg (by simp; omega)]
        rw [hsing, show m + 1 - a = 0 from by omega, show m - a = 0 from by omega]
        simp
    · have hmin : min m b = b := by omega
      have hminS : min (m + 1) b = b := by omega
      have hsing : List.filter (fun i => decide (a ≤ i ∧ i < b)) [m] = [] := by
        simp only [List.filter_cons, List.filter_nil]
        rw [if_neg (by simp; omega)]
      rw [hmin, hminS, hsing]
      simp

/-!
## Claim theorems
-/

/-- C5: the ordered feature-name list produced at training time by the
Indicator Library's `get_feature_columns` is element-for-element identical
(same names, same order, same length) to the list produced at inference
time by the backend inference module's `get_feature_columns`. -/
theorem c5_feature_columns_identical :
    TechnicalIndicators.get_feature_columns = InferenceFeatures.get_feature_columns := rfl

set_option maxRecDepth 10000 in
/-- C4: for two assets each contributing 100 feature rows dated days 1
through 100, the 0.8-quantile cutoff over the combined 200 timestamps is
80.2, and the partition rule (train: `ts ≤ cutoff`, test: `ts > cutoff`)
yields exactly 160 train rows and 40 test rows. -/
theorem c4_split_two_assets_160_40 :
    (TrainGlobalModel.splitByDate (dayRows 100 ++ dayRows 100)).1 = 401 / 5 ∧
    (TrainGlobalModel.splitByDate (dayRows 100 ++ dayRows 100)).2.1.length = 160 ∧
    (TrainGlobalModel.splitByDate (dayRows 100 ++ dayRows 100)).2.2.length = 40 := by
  decide

/-- C9 counterexample: with constant volume 1 and window 20, row 19 has
rolling mean volume 1; `calculate_volume_features` computes `vol_ratio =
1/2 = volume/(mean + 1)` there, not `1 = volume/mean` as the claim
states. -/
theorem c9_counterexample_vol_ratio :
    colOf ((TechnicalIndicators.calculate_volume_features volOnlyHeap 0 20).1.getF
        (TechnicalIndicators.calculate_volume_features volOnlyHeap 0 20).2) "vol_ratio" 19 =
      some (1 / 2) ∧
    specVolumeRatio (colOf (volOnlyHeap.getF 0) "volume") 20 19 = some 1 ∧
    colOf ((TechnicalIndicators.calculate_volume_features volOnlyHeap 0 20).1.getF
        (TechnicalIndicators.calculate_volume_features volOnlyHeap 0 20).2) "vol_ratio" 19 ≠
      specVolumeRatio (colOf (volOnlyHeap.getF 0) "volume") 20 19 := by
  refine ⟨by decide, by decide, by decide⟩

theorem vol_ma_name_ne_volume (w : Nat) : ("volume" : String) ≠ "vol_ma_" ++ toString w := by
  intro h
  have hlen := congrArg String.length h
  rw [String.length_append] at hlen
  have h6 : ("volume" : String).length = 6 := rfl
  have h7 : ("vol_ma_" : String).length = 7 := rfl
  rw [h6, h7] at hlen
  omega

/-- C9 (amended): the volume-ratio feature at each row where the volume
and the rolling mean of volume are both defined equals
`volume / (rolling_mean(volume, window) + 1)` — the source adds 1 to the
denominator. -/
theorem c9_amended_vol_ratio (h : Heap) (df w : Nat) (i : Nat) (v m : ℚ)
    (hv : colOf (h.getF df) "volume" i = some v)
    (hm : rollingMean (colOf (h.getF df) "volume") w i = some m) :
    colOf ((TechnicalIndicators.calculate_volume_features h df w).1.getF
        (TechnicalIndicators.calculate_volume_features h df w).2) "vol_ratio" i =
      some (v / (m + 1)) := by
  unfold TechnicalIndicators.calculate_volume_features
  have hlen1 : (h.copy df).2 < (h.copy df).1.frames.length := by
    rw [Heap.copy_ref, Heap.length_copy]
    omega
  have hbase : (h.copy df).1.getF (h.copy df).2 = h.getF df := Heap.getF_copy_self h df
  have hlen2 : (h.copy df).2 <
      (((h.copy df).1.set (h.copy df).2 ("vol_ma_" ++ toString w)
        (rollingMean (colOf ((h.copy df).1.getF (h.copy df).2) "volume") w)).frames.length) := by
    rw [Heap.length_set]
    exact hlen1
  rw [Heap.getF_set_self hlen2]
  rw [colOf_setCol_self]
  rw [Heap.getF_set_self hlen1]
  rw [hbase]
  rw [colOf_setCol_ne _ _ _ _ (vol_ma_name_ne_volume w)]
  rw [colOf_setCol_self]
  unfold map2
  rw [hv, hm]

/-- Instantiation of `c9_amended_vol_ratio` at a concrete input. -/
theorem c9_amended_vol_ratio_witness :
    colOf ((TechnicalIndicators.calculate_volume_features volOnlyHeap 0 20).1.getF
        (TechnicalIndicators.calculate_volume_features volOnlyHeap 0 20).2) "vol_ratio" 19 =
      some (1 / (1 + 1)) :=
  c9_amended_vol_ratio volOnlyHeap 0 20 19 1 1 (by decide) (by decide)

/-- C7: every computed (non-`NaN`) RSI value produced by `calculate_rsi`
lies in `[0, 100]`, given strictly positive close prices; the RSI is
`100 - 100/(1 + gain/(loss + 1e-8))` with `gain`, `loss` the rolling
means of positive and negative price deltas over the period. -/
theorem c7_rsi_bounded (h : Heap) (df period : Nat)
    (hpos : ∀ i, 0 < ((colOf (h.getF df) "close" i).getD 1)) (i : Nat) (v : ℚ)
    (hv : colOf ((TechnicalIndicators.calculate_rsi h df period).1.getF
        (TechnicalIndicators.calculate_rsi h df period).2) "rsi" i = some v) :
    0 ≤ v ∧ v ≤ 100 := by
  simp only [TechnicalIndicators.calculate_rsi] at hv
  have hlen1 : (h.copy df).2 < (h.copy df).1.frames.length := by
    rw [Heap.copy_ref, Heap.length_copy]
    omega
  rw [Heap.getF_set_self hlen1, colOf_setCol_self, Heap.getF_copy_self] at hv
  exact rsiSeries_mem_Icc hv

/-- Instantiation of `c7_rsi_bounded` at a concrete input. -/
theorem c7_rsi_bounded_witness : 0 ≤ (0 : ℚ) ∧ (0 : ℚ) ≤ 100 :=
  c7_rsi_bounded closeOnlyHeap 0 14
    (fun i => by simp [closeOnlyHeap, Heap.getF, colOf]) 13 0 (by decide)

theorem processLoop_ne_nil {assets : List (Except String (List TrainGlobalModel.FRow))}
    {rows : List TrainGlobalModel.FRow} (h : Except.ok rows ∈ assets) :
    TrainGlobalModel.processLoop assets ≠ [] := by
  induction assets with
  | nil => simp at h
  | cons a t ih =>
    cases a with
    | ok x => simp [TrainGlobalModel.processLoop]
    | error e =>
      have : Except.ok rows ∈ t := by
        rcases List.mem_cons.mp h with h1 | h1
        · cases h1
        · exact h1
      simpa [TrainGlobalModel.processLoop] using ih this

theorem processLoop_all_error {assets : List (Except String (List TrainGlobalModel.FRow))}
    (h : ∀ a ∈ assets, ∃ msg, a = Except.error msg) :
    TrainGlobalModel.processLoop assets = [] := by
  induction assets with
  | nil => rfl
  | cons a t ih =>
    rcases h a (List.mem_cons_self _ _) with ⟨msg, rfl⟩
    simpa [TrainGlobalModel.processLoop] using
      ih (fun b hb => h b (List.mem_cons_of_mem _ hb))

/-- C8: in the multi-asset loop, an asset whose load/featurize raises is
skipped and the loop continues; if at least one asset succeeds the
pipeline completes, and if zero assets succeed it fails fatally with
`pd.concat`'s "No objects to concatenate" error instead of training on an
empty dataset. -/
theorem c8_per_asset_failure_policy :
    (∀ (pre : List (Except String (List TrainGlobalModel.FRow))) (e : String) post,
      TrainGlobalModel.processLoop (pre ++ Except.error e :: post) =
        TrainGlobalModel.processLoop (pre ++ post)) ∧
    (∀ (assets : List (Except String (List TrainGlobalModel.FRow))) rows,
      Except.ok rows ∈ assets →
      ∃ out, TrainGlobalModel.mainPipeline assets = Except.ok out) ∧
    (∀ (assets : List (Except String (List TrainGlobalModel.FRow))),
      (∀ a ∈ assets, ∃ msg, a = Except.error msg) →
      TrainGlobalModel.mainPipeline assets = Except.error "No objects to concatenate") := by
  refine ⟨?_, ?_, ?_⟩
  · intro pre e post
    induction pre with
    | nil => rfl
    | cons a t ih =>
      cases a <;> simp [TrainGlobalModel.processLoop, ih]
  · intro assets rows hmem
    cases hp : TrainGlobalModel.processLoop assets with
    | nil => exact absurd hp (processLoop_ne_nil hmem)
    | cons f fs =>
      exact ⟨_, by rw [TrainGlobalModel.mainPipeline, hp]⟩
  · intro assets hall
    rw [TrainGlobalModel.mainPipeline, processLoop_all_error hall]

/-- Instantiation of `c8_per_asset_failure_policy` at concrete inputs. -/
theorem c8_per_asset_failure_policy_witness :
    TrainGlobalModel.processLoop
        ([] ++ Except.error "db failure" :: [Except.ok [⟨0, [], 0⟩]]) =
      TrainGlobalModel.processLoop ([] ++ [Except.ok [⟨0, [], 0⟩]]) ∧
    (∃ out, TrainGlobalModel.mainPipeline
        [Except.error "db failure", Except.ok [⟨0, [], 0⟩]] = Except.ok out) ∧
    TrainGlobalModel.mainPipeline [Except.error "db failure"] =
      Except.error "No objects to concatenate" :=
  ⟨c8_per_asset_failure_policy.1 [] "db failure" [Except.ok [⟨0, [], 0⟩]],
   c8_per_asset_failure_policy.2.1 [Except.error "db failure", Except.ok [⟨0, [], 0⟩]]
     [⟨0, [], 0⟩] (by simp),
   c8_per_asset_failure_policy.2.2 [Except.error "db failure"]
     (fun a ha => ⟨"db failure", by rw [List.mem_singleton] at ha; exact ha⟩)⟩

/-- C1: in the dataset builder, the split cutoff is the 0.8 quantile of
the combined timestamp distribution across all assets (not per-asset);
train is exactly the rows with timestamp ≤ cutoff, test exactly those
with timestamp > cutoff; hence `t_train ≤ cutoff < t_test` for every
train row and test row (no leakage). -/
theorem c1_global_split_no_leakage
    (assets : List (Except String (List TrainGlobalModel.FRow)))
    (c : ℚ) (train test : List TrainGlobalModel.FRow)
    (h : TrainGlobalModel.mainPipeline assets = Except.ok (c, train, test)) :
    c = quantile (4 / 5)
        (((TrainGlobalModel.processLoop assets).flatten).map (fun r => r.date)) ∧
    (∀ r, r ∈ train ↔ r ∈ (TrainGlobalModel.processLoop assets).flatten ∧ r.date ≤ c) ∧
    (∀ r, r ∈ test ↔ r ∈ (TrainGlobalModel.processLoop assets).flatten ∧ c < r.date) ∧
    (∀ t ∈ train, ∀ u ∈ test, t.date ≤ c ∧ c < u.date) := by
  cases hp : TrainGlobalModel.processLoop assets with
  | nil =>
    rw [TrainGlobalModel.mainPipeline, hp] at h
    cases h
  | cons f fs =>
    rw [TrainGlobalModel.mainPipeline, hp] at h
    injection h with h2
    have hc : c = (TrainGlobalModel.splitByDate ((f :: fs).flatten)).1 := by rw [h2]
    have htr : train = (TrainGlobalModel.splitByDate ((f :: fs).flatten)).2.1 := by rw [h2]
    have hte : test = (TrainGlobalModel.splitByDate ((f :: fs).flatten)).2.2 := by rw [h2]
    have hcq : c = quantile (4 / 5) (((f :: fs).flatten).map (fun r => r.date)) := hc
    have htr' : train = ((f :: fs).flatten).filter (fun r => r.date ≤ c) := by
      rw [htr, hcq]
      rfl
    have hte' : test = ((f :: fs).flatten).filter (fun r => decide (c < r.date)) := by
      rw [hte, hcq]
      rfl
    refine ⟨hcq, ?_, ?_, ?_⟩
    · intro r
      rw [htr', List.mem_filter]
      simp
    · intro r
      rw [hte', List.mem_filter]
      simp
    · intro t ht u hu
      rw [htr'] at ht
      rw [hte'] at hu
      have h1 := (List.mem_filter.mp ht).2
      have h2 := (List.mem_filter.mp hu).2
      simp at h1 h2
      exact ⟨h1, h2⟩

/-- Characterisation of the rows kept by the `dropna` of
`train_global_model.create_features` on a clean frame: the window of
`sma_50` (warm-up 49, the largest of all indicator warm-ups) and the
observability of the 60-bar forward target bound the surviving rows
exactly. -/
theorem tgRowComplete_iff (r : RawFrame) (tid : ℚ) (hclean : r.clean)
    {i : Nat} (hi : i < r.n) :
    rowComplete (TrainGlobalModel.tgColumns r tid) i = true ↔
      (49 ≤ i ∧ i + 60 < r.n) := by
  have hcl : ∀ j, j < r.n → (r.closeCol j).isSome := fun j hj => (hclean j hj).2.2.2.1
  have hvl : ∀ j, j < r.n → (r.volumeCol j).isSome := fun j hj => (hclean j hj).2.2.2.2
  constructor
  · intro h
    have hall := List.all_eq_true.mp h
    have h50 := hall ("dist_sma_50",
      map2 (fun c s => c / s - 1) r.closeCol (rollingMean r.closeCol 50))
      (by simp [TrainGlobalModel.tgColumns])
    have h50' := (map2_isSome_iff.mp (by simpa using h50)).2
    have h49 := le_of_rollingMean_isSome h50'
    have htg := hall ("target", map2 (fun a b => a / b - 1)
      (shiftNeg r.closeCol TrainGlobalModel.PREDICTION_HORIZON r.n) r.closeCol)
      (by simp [TrainGlobalModel.tgColumns])
    have htg' := (map2_isSome_iff.mp (by simpa using htg)).1
    have h60 := (shiftNeg_isSome_iff.mp htg').1
    simp only [TrainGlobalModel.PREDICTION_HORIZON] at h60
    exact ⟨by omega, by omega⟩
  · rintro ⟨h49, h60⟩
    apply List.all_eq_true.mpr
    intro c hc
    simp only [TrainGlobalModel.tgColumns, List.mem_cons, List.not_mem_nil,
      or_false] at hc
    rcases hc with rfl | rfl | rfl | rfl | rfl | rfl | rfl | rfl | rfl | rfl | rfl |
      rfl | rfl | rfl | rfl | rfl | rfl | rfl | rfl | rfl | rfl | rfl
    · rfl
    · exact (hclean i hi).1
    · exact (hclean i hi).2.1
    · exact (hclean i hi).2.2.1
    · exact hcl i hi
    · exact hvl i hi
    · simp only [TrainGlobalModel.PREDICTION_HORIZON]
      exact map2_isSome_iff.mpr
        ⟨shiftNeg_isSome_iff.mpr ⟨by omega, hcl _ (by omega)⟩, hcl i hi⟩
    · exact pctChange_isSome_iff.mpr ⟨by omega, hcl i hi, hcl _ (by omega)⟩
    · exact pctChange_isSome_iff.mpr ⟨by omega, hcl i hi, hcl _ (by omega)⟩
    · exact pctChange_isSome_iff.mpr ⟨by omega, hcl i hi, hcl _ (by omega)⟩
    · exact pctChange_isSome_iff.mpr ⟨by omega, hcl i hi, hcl _ (by omega)⟩
    · exact rollingMean_isSome (by omega) (fun j h1 h2 => hcl j (by omega))
    · exact map2_isSome_iff.mpr
        ⟨hcl i hi, rollingMean_isSome (by omega) (fun j h1 h2 => hcl j (by omega))⟩
    · exact rollingMean_isSome (by omega) (fun j h1 h2 => hcl j (by omega))
    · exact map2_isSome_iff.mpr
        ⟨hcl i hi, rollingMean_isSome (by omega) (fun j h1 h2 => hcl j (by omega))⟩
    · exact rollingStd_isSome (by omega) (fun j h1 h2 =>
        pctChange_isSome_iff.mpr ⟨by omega, hcl j (by omega), hcl _ (by omega)⟩)
    · exact rsiSeries_isSome (by omega)
    · exact rollingMean_isSome (by omega) (fun j h1 h2 => hvl j (by omega))
    · exact map2_isSome_iff.mpr
        ⟨hvl i hi, rollingMean_isSome (by omega) (fun j h1 h2 => hvl j (by omega))⟩
    · rfl
    · rfl
    · rfl

/-- C3: for a single-asset bar sequence of length `n ≥ 110
(= warm-up 49 + horizon 60 + 1)`, sorted by timestamp, with no missing
OHLCV values (and well-formed prices/volumes), the feature matrix
returned by `create_features` has exactly `n - 49 - 60` rows: the first
`max(window) - 1 = 49` rows and the last `horizon = 60` rows are absent
and all other rows are present. -/
theorem c3_feature_row_count (r : RawFrame) (tid : ℚ)
    (hsorted : ∀ i j, i ≤ j → j < r.n → r.dateCol i ≤ r.dateCol j)
    (hclean : r.clean) (hpos : r.posClose) (hvol : r.nonnegVol)
    (hn : 110 ≤ r.n) :
    (TrainGlobalModel.create_features r tid).x.length = r.n - 49 - 60 ∧
    (∀ i, i ∈ TrainGlobalModel.tgKept r tid ↔ 49 ≤ i ∧ i + 60 < r.n) := by
  have hfilt : keptRows (TrainGlobalModel.tgColumns r tid) r.n =
      (List.range r.n).filter (fun i => decide (49 ≤ i ∧ i < r.n - 60)) := by
    unfold keptRows
    apply List.filter_congr
    intro i hmem
    rw [List.mem_range] at hmem
    have hiff := tgRowComplete_iff r tid hclean hmem
    cases hket : rowComplete (TrainGlobalModel.tgColumns r tid) i with
    | false =>
      have hnot : ¬ (49 ≤ i ∧ i < r.n - 60) := by
        rintro ⟨hb1, hb2⟩
        have := hiff.mpr ⟨hb1, by omega⟩
        rw [hket] at this
        cases this
      simp [hnot]
    | true =>
      have hb := hiff.mp hket
      have : 49 ≤ i ∧ i < r.n - 60 := ⟨hb.1, by omega⟩
      simp [this]
  constructor
  · show (TrainGlobalModel.create_features r tid).x.length = r.n - 49 - 60
    unfold TrainGlobalModel.create_features
    simp only [List.length_map]
    show (keptRows (TrainGlobalModel.tgColumns r tid) r.n).length = r.n - 49 - 60
    rw [hfilt, filter_range_band, List.length_range']
    omega
  · intro i
    show i ∈ keptRows (TrainGlobalModel.tgColumns r tid) r.n ↔ _
    rw [hfilt, List.mem_filter, List.mem_range]
    simp only [decide_eq_true_eq]
    omega

/-- Instantiation of `c3_feature_row_count` at a concrete input. -/
theorem c3_feature_row_count_witness :
    (TrainGlobalModel.create_features (constBars 110) 0).x.length = 110 - 49 - 60 :=
  (c3_feature_row_count (constBars 110) 0 (fun i j hij _ => by
      show (i : ℚ) ≤ (j : ℚ)
      exact_mod_cast hij)
    (fun i _ => ⟨rfl, rfl, rfl, rfl, rfl⟩) (fun i _ => one_pos)
    (fun i _ => zero_le_one) (le_refl 110)).1

set_option maxRecDepth 10000 in
/-- C2 counterexample: in the classifier variant
(`train_classifier_model.create_features`), the target column is never
`NaN` — it is initialised to NEUTRAL and only overwritten where the
threshold comparison on the forward return holds, and a `NaN` forward
return compares `False`.  On a clean 72-row frame, row 71 survives the
`dropna` although its 12-bar forward close is unobservable
(`shift(-12)` is `NaN` there); it is silently labelled NEUTRAL (1).
This falsifies the claim that the final `horizon` rows are removed for
every feature-assembler variant. -/
theorem c2_counterexample_classifier_keeps_tail :
    71 ∈ TrainClassifierModel.clKept (constBars 72) 0 ∧
    shiftNeg (constBars 72).closeCol TrainClassifierModel.PREDICTION_HORIZON
      (constBars 72).n 71 = none ∧
    colOf (TrainClassifierModel.clColumns (constBars 72) 0) "target" 71 = some 1 := by
  refine ⟨by decide, by decide, by decide⟩

/-- C2 (amended): the `dropna` of the global regression trainer keeps
only rows with every column (features and target) non-`NaN`, and every
kept row lies past the 49-row indicator warm-up and before the final 60
rows with unobservable forward targets.  In the classifier trainer, the
`dropna` likewise keeps only rows with all columns non-`NaN`, but the
classification target is never `NaN`, so the final `horizon` rows are
not removed on account of the target. -/
theorem c2_amended_dropna_policy :
    (∀ (r : RawFrame) (tid : ℚ) (i : Nat), i ∈ TrainGlobalModel.tgKept r tid →
      rowComplete (TrainGlobalModel.tgColumns r tid) i = true ∧
      49 ≤ i ∧ i + 60 < r.n) ∧
    (∀ (close : Series) (n i : Nat),
      (TrainClassifierModel.clTarget close n i).isSome) ∧
    (∀ (r : RawFrame) (tid : ℚ) (i : Nat), i ∈ TrainClassifierModel.clKept r tid →
      rowComplete (TrainClassifierModel.clColumns r tid) i = true) := by
  refine ⟨?_, ?_, ?_⟩
  · intro r tid i hmem
    have hrc := (List.mem_filter.mp hmem).2
    refine ⟨hrc, ?_, ?_⟩
    · have hall := List.all_eq_true.mp hrc
      have h50 := hall ("dist_sma_50",
        map2 (fun c s => c / s - 1) r.closeCol (rollingMean r.closeCol 50))
        (by simp [TrainGlobalModel.tgColumns])
      have h50' := (map2_isSome_iff.mp (by simpa using h50)).2
      have := le_of_rollingMean_isSome h50'
      omega
    · have hall := List.all_eq_true.mp hrc
      have htg := hall ("target", map2 (fun a b => a / b - 1)
        (shiftNeg r.closeCol TrainGlobalModel.PREDICTION_HORIZON r.n) r.closeCol)
        (by simp [TrainGlobalModel.tgColumns])
      have htg' := (map2_isSome_iff.mp (by simpa using htg)).1
      have h60 := (shiftNeg_isSome_iff.mp htg').1
      simpa [TrainGlobalModel.PREDICTION_HORIZON] using h60
  · intro close n i
    unfold TrainClassifierModel.clTarget
    cases hx : map2 (fun a b => a / b - 1)
        (shiftNeg close TrainClassifierModel.PREDICTION_HORIZON n) close i <;>
      simp [hx]
  · intro r tid i hmem
    exact (List.mem_filter.mp hmem).2

set_option maxRecDepth 10000 in
/-- Instantiation of `c2_amended_dropna_policy` at concrete inputs. -/
theorem c2_amended_dropna_policy_witness :
    (rowComplete (TrainGlobalModel.tgColumns (constBars 110) 0) 49 = true ∧
      49 ≤ 49 ∧ 49 + 60 < (constBars 110).n) ∧
    (TrainClassifierModel.clTarget (fun _ => some 1) 10 5).isSome ∧
    rowComplete (TrainClassifierModel.clColumns (constBars 72) 0) 71 = true :=
  ⟨c2_amended_dropna_policy.1 (constBars 110) 0 49 (by decide),
   c2_amended_dropna_policy.2.1 (fun _ => some 1) 10 5,
   c2_amended_dropna_policy.2.2 (constBars 72) 0 71 (by decide)⟩

/-- Characterisation of the rows kept by the `dropna` inside
`prepare_features_for_prediction` on a clean frame: only the 49-row
warm-up of the largest window (`sma_50`) limits the surviving rows —
there is no forward-looking target at inference time. -/
theorem infRowComplete_iff (r : RawFrame) (hclean : r.clean) {i : Nat} (hi : i < r.n) :
    rowComplete (InferenceFeatures.calculate_technical_indicators r) i = true ↔
      49 ≤ i := by
  have hcl : ∀ j, j < r.n → (r.closeCol j).isSome := fun j hj => (hclean j hj).2.2.2.1
  have hvl : ∀ j, j < r.n → (r.volumeCol j).isSome := fun j hj => (hclean j hj).2.2.2.2
  have hewm : ∀ (sp : ℚ) (j : Nat), j < r.n → (ewmMean r.closeCol sp j).isSome :=
    fun sp j hj => ewmMean_isSome (fun k hk => hcl k (by omega))
  have hmacd : ∀ j, j < r.n →
      ((map2 (fun a b => a - b) (ewmMean r.closeCol 12) (ewmMean r.closeCol 26)) j).isSome :=
    fun j hj => map2_isSome_iff.mpr ⟨hewm 12 j hj, hewm 26 j hj⟩
  constructor
  · intro h
    have hall := List.all_eq_true.mp h
    have h50 := hall ("dist_sma_50",
      map2 (fun c s => c / s - 1) r.closeCol (rollingMean r.closeCol 50))
      (by simp [InferenceFeatures.calculate_technical_indicators])
    have h50' := (map2_isSome_iff.mp (by simpa using h50)).2
    have := le_of_rollingMean_isSome h50'
    omega
  · intro h49
    apply List.all_eq_true.mpr
    intro c hc
    simp only [InferenceFeatures.calculate_technical_indicators, List.mem_cons,
      List.not_mem_nil, or_false] at hc
    rcases hc with rfl | rfl | rfl | rfl | rfl | rfl | rfl | rfl | rfl | rfl | rfl |
      rfl | rfl | rfl | rfl | rfl | rfl | rfl | rfl | rfl | rfl | rfl | rfl | rfl |
      rfl | rfl | rfl | rfl | rfl
    · rfl
    · exact (hclean i hi).1
    · exact (hclean i hi).2.1
    · exact (hclean i hi).2.2.1
    · exact hcl i hi
    · exact hvl i hi
    · exact rollingMean_isSome (by omega) (fun j h1 h2 => hcl j (by omega))
    · exact map2_isSome_iff.mpr
        ⟨hcl i hi, rollingMean_isSome (by omega) (fun j h1 h2 => hcl j (by omega))⟩
    · exact rollingMean_isSome (by omega) (fun j h1 h2 => hcl j (by omega))
    · exact map2_isSome_iff.mpr
        ⟨hcl i hi, rollingMean_isSome (by omega) (fun j h1 h2 => hcl j (by omega))⟩
    · exact rollingMean_isSome (by omega) (fun j h1 h2 => hcl j (by omega))
    · exact map2_isSome_iff.mpr
        ⟨hcl i hi, rollingMean_isSome (by omega) (fun j h1 h2 => hcl j (by omega))⟩
    · exact rsiSeries_isSome (by omega)
    · exact hmacd i hi
    · exact ewmMean_isSome (fun j hj => hmacd j (by omega))
    · exact map2_isSome_iff.mpr
        ⟨hmacd i hi, ewmMean_isSome (fun j hj => hmacd j (by omega))⟩
    · exact map2_isSome_iff.mpr
        ⟨rollingMean_isSome (by omega) (fun j h1 h2 => hcl j (by omega)),
         rollingStd_isSome (by omega) (fun j h1 h2 => hcl j (by omega))⟩
    · exact map2_isSome_iff.mpr
        ⟨rollingMean_isSome (by omega) (fun j h1 h2 => hcl j (by omega)),
         rollingStd_isSome (by omega) (fun j h1 h2 => hcl j (by omega))⟩
    · exact map2_isSome_iff.mpr
        ⟨map2_isSome_iff.mpr
          ⟨map2_isSome_iff.mpr
            ⟨rollingMean_isSome (by omega) (fun j h1 h2 => hcl j (by omega)),
             rollingStd_isSome (by omega) (fun j h1 h2 => hcl j (by omega))⟩,
           map2_isSome_iff.mpr
            ⟨rollingMean_isSome (by omega) (fun j h1 h2 => hcl j (by omega)),
             rollingStd_isSome (by omega) (fun j h1 h2 => hcl j (by omega))⟩⟩,
         rollingMean_isSome (by omega) (fun j h1 h2 => hcl j (by omega))⟩
    · exact map2_isSome_iff.mpr
        ⟨map2_isSome_iff.mpr
          ⟨hcl i hi,
           map2_isSome_iff.mpr
            ⟨rollingMean_isSome (by omega) (fun j h1 h2 => hcl j (by omega)),
             rollingStd_isSome (by omega) (fun j h1 h2 => hcl j (by omega))⟩⟩,
         map2_isSome_iff.mpr
          ⟨map2_isSome_iff.mpr
            ⟨rollingMean_isSome (by omega) (fun j h1 h2 => hcl j (by omega)),
             rollingStd_isSome (by omega) (fun j h1 h2 => hcl j (by omega))⟩,
           map2_isSome_iff.mpr
            ⟨rollingMean_isSome (by omega) (fun j h1 h2 => hcl j (by omega)),
             rollingStd_isSome (by omega) (fun j h1 h2 => hcl j (by omega))⟩⟩⟩
    · exact pctChange_isSome_iff.mpr ⟨by omega, hcl i hi, hcl _ (by omega)⟩
    · exact pctChange_isSome_iff.mpr ⟨by omega, hcl i hi, hcl _ (by omega)⟩
    · exact pctChange_isSome_iff.mpr ⟨by omega, hcl i hi, hcl _ (by omega)⟩
    · exact pctChange_isSome_iff.mpr ⟨by omega, hcl i hi, hcl _ (by omega)⟩
    · exact rollingStd_isSome (by omega) (fun j h1 h2 =>
        pctChange_isSome_iff.mpr ⟨by omega, hcl j (by omega), hcl _ (by omega)⟩)
    · exact rollingMean_isSome (by omega) (fun j h1 h2 => hvl j (by omega))
    · exact map2_isSome_iff.mpr
        ⟨hvl i hi, rollingMean_isSome (by omega) (fun j h1 h2 => hvl j (by omega))⟩
    · rfl
    · rfl

/-- C6: for every clean OHLCV frame with at least 50 bars (the longest
rolling window), `prepare_features_for_prediction` returns exactly one
feature row — the one computed at the most recent index `n-1`, which is
fully populated — with columns exactly `get_feature_columns()` in order;
when no fully-populated row exists it returns the `ValueError` instead. -/
theorem c6_prepare_most_recent_row (r : RawFrame) (hclean : r.clean)
    (hpos : r.posClose) (hvol : r.nonnegVol) (hn : 50 ≤ r.n) :
    InferenceFeatures.prepare_features_for_prediction r =
      Except.ok (InferenceFeatures.get_feature_columns.map (fun c =>
        (c, (colOf (InferenceFeatures.calculate_technical_indicators r) c
          (r.n - 1)).getD 0))) ∧
    rowComplete (InferenceFeatures.calculate_technical_indicators r) (r.n - 1) = true ∧
    (InferenceFeatures.get_feature_columns.map (fun c =>
        (c, (colOf (InferenceFeatures.calculate_technical_indicators r) c
          (r.n - 1)).getD 0))).map Prod.fst =
      InferenceFeatures.get_feature_columns ∧
    (∀ (q : RawFrame),
      keptRows (InferenceFeatures.calculate_technical_indicators q) q.n = [] →
      InferenceFeatures.prepare_features_for_prediction q =
        Except.error "Insufficient data to calculate features") := by
  have hfilt : keptRows (InferenceFeatures.calculate_technical_indicators r) r.n =
      List.range' 49 (r.n - 49) := by
    have h1 : keptRows (InferenceFeatures.calculate_technical_indicators r) r.n =
        (List.range r.n).filter (fun i => decide (49 ≤ i ∧ i < r.n)) := by
      unfold keptRows
      apply List.filter_congr
      intro i hmem
      rw [List.mem_range] at hmem
      have hiff := infRowComplete_iff r hclean hmem
      cases hket : rowComplete (InferenceFeatures.calculate_technical_indicators r) i with
      | false =>
        have hnot : ¬ (49 ≤ i ∧ i < r.n) := by
          rintro ⟨hb1, _⟩
          have := hiff.mpr hb1
          rw [hket] at this
          cases this
        simp [hnot]
      | true =>
        have hb : 49 ≤ i ∧ i < r.n := ⟨hiff.mp hket, hmem⟩
        simp [hb]
    rw [h1, filter_range_band]
    congr 1
    omega
  have hlast : (keptRows (InferenceFeatures.calculate_technical_indicators r)
      r.n).getLast? = some (r.n - 1) := by
    rw [hfilt, show r.n - 49 = (r.n - 50) + 1 from by omega, List.range'_concat,
      List.getLast?_concat]
    congr 1
    omega
  refine ⟨?_, ?_, ?_, ?_⟩
  · simp only [InferenceFeatures.prepare_features_for_prediction, hlast]
  · exact (infRowComplete_iff r hclean (by omega)).mpr (by omega)
  · rw [List.map_map]
    exact List.map_id'' (fun _ => rfl) _
  · intro q hq
    simp only [InferenceFeatures.prepare_features_for_prediction, hq,
      List.getLast?_nil]

/-- Instantiation of `c6_prepare_most_recent_row` at a concrete input. -/
theorem c6_prepare_most_recent_row_witness :
    InferenceFeatures.prepare_features_for_prediction (constBars 50) =
      Except.ok (InferenceFeatures.get_feature_columns.map (fun c =>
        (c, (colOf (InferenceFeatures.calculate_technical_indicators (constBars 50)) c
          ((constBars 50).n - 1)).getD 0))) :=
  (c6_prepare_most_recent_row (constBars 50) (fun i _ => ⟨rfl, rfl, rfl, rfl, rfl⟩)
    (fun i _ => one_pos) (fun i _ => zero_le_one) (le_refl 50)).1

theorem Heap.copy_frames (h : Heap) (r : Nat) :
    (h.copy r).1 = ⟨h.frames ++ [h.getF r]⟩ := rfl

theorem Heap.getF_last (l : List Frame) (f : Frame) :
    (Heap.mk (l ++ [f])).getF l.length = f := by
  unfold Heap.getF
  rw [List.getD_append_right _ _ _ _ (le_refl _)]
  simp

theorem Heap.set_last (l : List Frame) (f : Frame) (name : String) (s : Series) :
    (Heap.mk (l ++ [f])).set l.length name s = ⟨l ++ [setCol f name s]⟩ := by
  unfold Heap.set
  congr 1
  rw [show (Heap.mk (l ++ [f])).getF l.length = f from Heap.getF_last l f,
    List.set_append]
  simp

theorem getF_mk_append_lt (l : List Frame) (t : List Frame) {j : Nat}
    (hj : j < l.length) : (Heap.mk (l ++ t)).getF j = (Heap.mk l).getF j := by
  unfold Heap.getF
  exact List.getD_append _ _ _ _ hj

theorem foldl_heap_shape {α : Type} (base : List Frame) (step : Heap → α → Heap)
    (hstep : ∀ (F : Frame) (a : α), ∃ F', step ⟨base ++ [F]⟩ a = ⟨base ++ [F']⟩) :
    ∀ (l : List α) (F0 : Frame), ∃ F, l.foldl step ⟨base ++ [F0]⟩ = ⟨base ++ [F]⟩
  | [], F0 => ⟨F0, rfl⟩
  | a :: t, F0 => by
    rcases hstep F0 a with ⟨F1, h1⟩
    rcases foldl_heap_shape base step hstep t F1 with ⟨F, hF⟩
    exact ⟨F, by rw [List.foldl_cons, h1, hF]⟩

theorem calculate_sma_shape (h : Heap) (df : Nat) (ws : List Nat) :
    ∃ F, TechnicalIndicators.calculate_sma h df ws =
      (⟨h.frames ++ [F]⟩, h.frames.length) := by
  simp only [TechnicalIndicators.calculate_sma, Heap.copy_ref, Heap.copy_frames]
  rcases foldl_heap_shape h.frames (TechnicalIndicators.smaStep h.frames.length)
    (fun F w => ⟨_, by
      simp only [TechnicalIndicators.smaStep]
      rw [Heap.set_last, Heap.set_last]⟩) ws (h.getF df) with ⟨F, hF⟩
  exact ⟨F, by rw [hF]⟩

theorem calculate_rsi_shape (h : Heap) (df : Nat) (period : Nat) :
    ∃ F, TechnicalIndicators.calculate_rsi h df period =
      (⟨h.frames ++ [F]⟩, h.frames.length) := by
  simp only [TechnicalIndicators.calculate_rsi, Heap.copy_ref, Heap.copy_frames]
  exact ⟨_, by rw [Heap.set_last]⟩

theorem calculate_macd_shape (h : Heap) (df : Nat) (fast slow signal : ℚ) :
    ∃ F, TechnicalIndicators.calculate_macd h df fast slow signal =
      (⟨h.frames ++ [F]⟩, h.frames.length) := by
  simp only [TechnicalIndicators.calculate_macd, Heap.copy_ref, Heap.copy_frames]
  exact ⟨_, by rw [Heap.set_last, Heap.set_last, Heap.set_last]⟩

theorem calculate_bollinger_bands_shape (h : Heap) (df : Nat) (window : Nat)
    (numStd : ℚ) :
    ∃ F, TechnicalIndicators.calculate_bollinger_bands h df window numStd =
      (⟨h.frames ++ [F]⟩, h.frames.length) := by
  simp only [TechnicalIndicators.calculate_bollinger_bands, Heap.copy_ref,
    Heap.copy_frames]
  exact ⟨_, by rw [Heap.set_last, Heap.set_last, Heap.set_last, Heap.set_last]⟩

theorem calculate_returns_shape (h : Heap) (df : Nat) (lags : List Nat) :
    ∃ F, TechnicalIndicators.calculate_returns h df lags =
      (⟨h.frames ++ [F]⟩, h.frames.length) := by
  simp only [TechnicalIndicators.calculate_returns, Heap.copy_ref, Heap.copy_frames]
  rcases foldl_heap_shape h.frames (TechnicalIndicators.retStep h.frames.length)
    (fun F lag => ⟨_, by
      simp only [TechnicalIndicators.retStep]
      rw [Heap.set_last]⟩) lags (h.getF df) with ⟨F, hF⟩
  exact ⟨F, by rw [hF]⟩

theorem calculate_volatility_shape (h : Heap) (df : Nat) (window : Nat) :
    ∃ F, TechnicalIndicators.calculate_volatility h df window =
      (⟨h.frames ++ [F]⟩, h.frames.length) := by
  simp only [TechnicalIndicators.calculate_volatility, Heap.copy_ref, Heap.copy_frames]
  exact ⟨_, by rw [Heap.set_last]⟩

theorem calculate_volume_features_shape (h : Heap) (df : Nat) (window : Nat) :
    ∃ F, TechnicalIndicators.calculate_volume_features h df window =
      (⟨h.frames ++ [F]⟩, h.frames.length) := by
  simp only [TechnicalIndicators.calculate_volume_features, Heap.copy_ref,
    Heap.copy_frames]
  exact ⟨_, by rw [Heap.set_last, Heap.set_last]⟩

theorem shape_spec {p : Heap × Nat} {h : Heap}
    (hs : ∃ F, p = (⟨h.frames ++ [F]⟩, h.frames.length)) :
    (∀ j, j < h.frames.length → p.1.getF j = h.getF j) ∧
    p.1.frames.length = h.frames.length + 1 ∧ p.2 = h.frames.length := by
  rcases hs with ⟨F, rfl⟩
  refine ⟨fun j hj => ?_, by simp, rfl⟩
  show (Heap.mk (h.frames ++ [F])).getF j = h.getF j
  rw [getF_mk_append_lt h.frames [F] hj]

theorem sortStage_pres (n : Nat) (p : Heap × Nat) (j : Nat)
    (hj : j < p.1.frames.length) (hne : j ≠ p.2) :
    (TechnicalIndicators.sortStage n p).1.getF j = p.1.getF j ∧
    p.1.frames.length ≤ (TechnicalIndicators.sortStage n p).1.frames.length := by
  unfold TechnicalIndicators.sortStage
  by_cases hc : ((p.1.getF p.2).any (fun c => c.1 = "date")) = true
  · rw [if_pos hc]
    constructor
    · rw [Heap.getF_alloc_lt (by rw [Heap.length_set]; exact hj),
        Heap.getF_set_ne _ _ hne]
    · rw [Heap.length_alloc, Heap.length_set]
      omega
  · rw [if_neg hc]
    exact ⟨rfl, le_refl _⟩

theorem timeStage_pres (p : Heap × Nat) (j : Nat) (hne : j ≠ p.2) :
    (TechnicalIndicators.timeStage p).1.getF j = p.1.getF j ∧
    (TechnicalIndicators.timeStage p).2 = p.2 := by
  unfold TechnicalIndicators.timeStage
  by_cases hc : ((p.1.getF p.2).any (fun c => c.1 = "date")) = true
  · rw [if_pos hc]
    exact ⟨by rw [Heap.getF_set_ne _ _ hne, Heap.getF_set_ne _ _ hne], rfl⟩
  · rw [if_neg hc]
    exact ⟨rfl, rfl⟩

theorem create_all_features_pres (h : Heap) (df n : Nat) (j : Nat)
    (hj : j < h.frames.length) :
    (TechnicalIndicators.create_all_features h df n).1.getF j = h.getF j ∧
    h.frames.length ≤ (TechnicalIndicators.create_all_features h df n).2 := by
  have hplen : (h.copy df).1.frames.length = h.frames.length + 1 := Heap.length_copy h df
  have hpref : (h.copy df).2 = h.frames.length := rfl
  obtain ⟨hqpres, hqlen⟩ := sortStage_pres n (h.copy df) j
    (by rw [hplen]; omega) (by rw [hpref]; omega)
  set q := TechnicalIndicators.sortStage n (h.copy df) with hq
  have hq1 : q.1.getF j = h.getF j := by rw [hqpres]; exact Heap.getF_copy_lt hj
  have hqL : h.frames.length + 1 ≤ q.1.frames.length := by rw [← hplen]; exact hqlen
  obtain ⟨hA1, hA2, hA3⟩ := shape_spec (calculate_sma_shape q.1 q.2 [10, 20, 50])
  set q1 := TechnicalIndicators.calculate_sma q.1 q.2 [10, 20, 50] with hq1def
  obtain ⟨hB1, hB2, hB3⟩ := shape_spec (calculate_rsi_shape q1.1 q1.2 14)
  set q2 := TechnicalIndicators.calculate_rsi q1.1 q1.2 14 with hq2def
  obtain ⟨hC1, hC2, hC3⟩ := shape_spec (calculate_macd_shape q2.1 q2.2 12 26 9)
  set q3 := TechnicalIndicators.calculate_macd q2.1 q2.2 12 26 9 with hq3def
  obtain ⟨hD1, hD2, hD3⟩ := shape_spec (calculate_bollinger_bands_shape q3.1 q3.2 20 2)
  set q4 := TechnicalIndicators.calculate_bollinger_bands q3.1 q3.2 20 2 with hq4def
  obtain ⟨hE1, hE2, hE3⟩ := shape_spec (calculate_returns_shape q4.1 q4.2 [1, 5, 10, 20])
  set q5 := TechnicalIndicators.calculate_returns q4.1 q4.2 [1, 5, 10, 20] with hq5def
  obtain ⟨hF1, hF2, hF3⟩ := shape_spec (calculate_volatility_shape q5.1 q5.2 20)
  set q6 := TechnicalIndicators.calculate_volatility q5.1 q5.2 20 with hq6def
  obtain ⟨hG1, hG2, hG3⟩ := shape_spec (calculate_volume_features_shape q6.1 q6.2 20)
  set q7 := TechnicalIndicators.calculate_volume_features q6.1 q6.2 20 with hq7def
  have hjq7 : j < q7.1.frames.length := by omega
  have hq7ref : h.frames.length + 1 ≤ q7.2 := by omega
  obtain ⟨hT1, hT2⟩ := timeStage_pres q7 j (by omega)
  have hgoal : (TechnicalIndicators.create_all_features h df n) =
      TechnicalIndicators.timeStage q7 := rfl
  rw [hgoal, hT1, hT2, hG1 j (by omega), hF1 j (by omega), hE1 j (by omega),
    hD1 j (by omega), hC1 j (by omega), hB1 j (by omega), hA1 j (by omega), hq1]
  exact ⟨rfl, by omega⟩

/-- C10: every Indicator Library function (`calculate_sma`,
`calculate_rsi`, `calculate_macd`, `calculate_bollinger_bands`,
`calculate_returns`, `calculate_volatility`, `calculate_volume_features`,
`create_all_features`) follows the `result = df.copy()` pattern: its
return value is a freshly allocated frame (never the input reference),
and the frame its input reference points to is unchanged by the call. -/
theorem c10_no_input_mutation (h : Heap) (df : Nat) (hdf : df < h.frames.length) :
    (∀ ws, (TechnicalIndicators.calculate_sma h df ws).1.getF df = h.getF df ∧
      (TechnicalIndicators.calculate_sma h df ws).2 ≠ df) ∧
    (∀ period, (TechnicalIndicators.calculate_rsi h df period).1.getF df = h.getF df ∧
      (TechnicalIndicators.calculate_rsi h df period).2 ≠ df) ∧
    (∀ fast slow signal,
      (TechnicalIndicators.calculate_macd h df fast slow signal).1.getF df = h.getF df ∧
      (TechnicalIndicators.calculate_macd h df fast slow signal).2 ≠ df) ∧
    (∀ window numStd,
      (TechnicalIndicators.calculate_bollinger_bands h df window numStd).1.getF df =
        h.getF df ∧
      (TechnicalIndicators.calculate_bollinger_bands h df window numStd).2 ≠ df) ∧
    (∀ lags, (TechnicalIndicators.calculate_returns h df lags).1.getF df = h.getF df ∧
      (TechnicalIndicators.calculate_returns h df lags).2 ≠ df) ∧
    (∀ window,
      (TechnicalIndicators.calculate_volatility h df window).1.getF df = h.getF df ∧
      (TechnicalIndicators.calculate_volatility h df window).2 ≠ df) ∧
    (∀ window,
      (TechnicalIndicators.calculate_volume_features h df window).1.getF df = h.getF df ∧
      (TechnicalIndicators.calculate_volume_features h df window).2 ≠ df) ∧
    (∀ n, (TechnicalIndicators.create_all_features h df n).1.getF df = h.getF df ∧
      (TechnicalIndicators.create_all_features h df n).2 ≠ df) := by
  refine ⟨fun ws => ?_, fun period => ?_, fun fast slow signal => ?_,
    fun window numStd => ?_, fun lags => ?_, fun window => ?_, fun window => ?_,
    fun n => ?_⟩
  · obtain ⟨h1, h2, h3⟩ := shape_spec (calculate_sma_shape h df ws)
    exact ⟨h1 df hdf, by omega⟩
  · obtain ⟨h1, h2, h3⟩ := shape_spec (calculate_rsi_shape h df period)
    exact ⟨h1 df hdf, by omega⟩
  · obtain ⟨h1, h2, h3⟩ := shape_spec (calculate_macd_shape h df fast slow signal)
    exact ⟨h1 df hdf, by omega⟩
  · obtain ⟨h1, h2, h3⟩ := shape_spec (calculate_bollinger_bands_shape h df window numStd)
    exact ⟨h1 df hdf, by omega⟩
  · obtain ⟨h1, h2, h3⟩ := shape_spec (calculate_returns_shape h df lags)
    exact ⟨h1 df hdf, by omega⟩
  · obtain ⟨h1, h2, h3⟩ := shape_spec (calculate_volatility_shape h df window)
    exact ⟨h1 df hdf, by omega⟩
  · obtain ⟨h1, h2, h3⟩ := shape_spec (calculate_volume_features_shape h df window)
    exact ⟨h1 df hdf, by omega⟩
  · obtain ⟨h1, h2⟩ := create_all_features_pres h df n df hdf
    exact ⟨h1, by omega⟩

/-- Instantiation of `c10_no_input_mutation` at a concrete input. -/
theorem c10_no_input_mutation_witness :
    ((TechnicalIndicators.calculate_sma closeOnlyHeap 0 [10, 20, 50]).1.getF 0 =
        closeOnlyHeap.getF 0 ∧
      (TechnicalIndicators.calculate_sma closeOnlyHeap 0 [10, 20, 50]).2 ≠ 0) ∧
    ((TechnicalIndicators.create_all_features closeOnlyHeap 0 1).1.getF 0 =
        closeOnlyHeap.getF 0 ∧
      (TechnicalIndicators.create_all_features closeOnlyHeap 0 1).2 ≠ 0) :=
  ⟨(c10_no_input_mutation closeOnlyHeap 0 (by decide)).1 [10, 20, 50],
   (c10_no_input_mutation closeOnlyHeap 0 (by decide)).2.2.2.2.2.2.2 1⟩

/-- Instantiation of `c1_global_split_no_leakage` at a concrete input. -/
theorem c1_global_split_no_leakage_witness :
    (0 : ℚ) = quantile (4 / 5)
      (((TrainGlobalModel.processLoop [Except.ok [⟨0, [], 0⟩]]).flatten).map
        (fun r => r.date)) :=
  (c1_global_split_no_leakage [Except.ok [⟨0, [], 0⟩]] 0 [⟨0, [], 0⟩] []
    (by rfl)).1

end StockML
